import Mathlib

/-!
Verification of the compose-file loader (`loader/loader.go`, `types/types.go`,
and the later loader revision containing `resolveVolumePaths`/`expandUser`).

The Go values coming out of the YAML parser are embedded as the inductive
`GoVal` (Go `interface{}` trees); `types.Dict` (`map[string]interface{}`)
becomes an association list.  Go maps are unordered and iterated in
unspecified order; the embedding fixes the association-list order, which is
the only place the embedding chooses an order the runtime does not.
Go `float64` scalars are carried as their printed form (the loader never
computes with them, it only formats them with `fmt.Sprint`).

Fallible Go code becomes `Except LoadErr`; a Go runtime panic (failed type
assertion, or an explicit `panic(...)`) is the distinguished error
constructor `LoadErr.goPanic`, so "returns an error" and "crashes" stay
distinguishable.
-/

namespace ComposeFile

/-- Keys of a raw (pre-normalization) Go map `map[interface{}]interface{}`:
the YAML parser produces string, integer or boolean keys. -/
inductive RawKey where
  | str (s : String)
  | int (n : Int)
  | bool (b : Bool)
deriving DecidableEq

/-- Raw nested value produced by the external YAML parser, before
`convertToStringKeysRecursive` has enforced string-only mapping keys. -/
inductive RawVal where
  | null
  | bool (b : Bool)
  | int (n : Int)
  | float (repr : String)
  | str (s : String)
  | list (xs : List RawVal)
  | map (xs : List (RawKey × RawVal))

/-- Normalized Go value: `interface{}` holding scalars, `[]interface{}` or a
string-keyed `types.Dict`. -/
inductive GoVal where
  | null
  | bool (b : Bool)
  | int (n : Int)
  | float (repr : String)
  | str (s : String)
  | list (xs : List GoVal)
  | dict (xs : List (String × GoVal))

/-- Association-list embedding of `types.Dict` (`map[string]interface{}`). -/
abbrev Dict := List (String × GoVal)

/-- Go map read `d[k]`, returning the value and whether the key was present. -/
def dlookup : List (String × α) → String → Option α
  | [], _ => none
  | (k, v) :: rest, key => if k = key then some v else dlookup rest key

/-- Is a raw key a Go `string`? -/
def RawKey.isStr : RawKey → Bool
  | .str _ => true
  | _ => false

/-- Go `%#v` rendering of a raw mapping key, as used in the
"Non-string key" error message. -/
def RawKey.printed : RawKey → String
  | .str s => "\"" ++ s ++ "\""
  | .int n => toString n
  | .bool b => if b then "true" else "false"

/-- Error returned by `convertToStringKeysRecursive`: the `keyPrefix`
argument at the offending mapping together with the offending key. -/
structure ConvErr where
  keyPre : String
  key : RawKey
deriving DecidableEq

/-- Location phrase of the "Non-string key" error: `"at top level"` for an
empty prefix, otherwise `"in <prefix>"` (loader.go:104-109). -/
def ConvErr.location (e : ConvErr) : String :=
  if e.keyPre = "" then "at top level" else "in " ++ e.keyPre

/-- Full message of `fmt.Errorf("Non-string key %s: %#v", location, key)`. -/
def ConvErr.message (e : ConvErr) : String :=
  "Non-string key " ++ e.location ++ ": " ++ e.key.printed

mutual

/-- Embedding of `convertToStringKeysRecursive` (loader.go:98-139): rebuild
the tree with string-only mapping keys, failing on the first non-string key;
the path prefix grows by `.<key>` through mappings and `[<index>]` through
sequences. -/
def convertToStringKeysRecursive : RawVal → String → Except ConvErr GoVal
  | .map xs, keyPre => (convertEntries xs keyPre).map GoVal.dict
  | .list xs, keyPre => (convertList xs keyPre 0).map GoVal.list
  | .null, _ => .ok .null
  | .bool b, _ => .ok (.bool b)
  | .int n, _ => .ok (.int n)
  | .float r, _ => .ok (.float r)
  | .str s, _ => .ok (.str s)

/-- Mapping clause of `convertToStringKeysRecursive`: check each key is a
string, recurse into the entry under the extended prefix. -/
def convertEntries : List (RawKey × RawVal) → String → Except ConvErr (List (String × GoVal))
  | [], _ => .ok []
  | (k, v) :: rest, keyPre =>
    match k with
    | .str s =>
      (convertToStringKeysRecursive v (if keyPre = "" then s else keyPre ++ "." ++ s)).bind
        fun v' => (convertEntries rest keyPre).map fun rest' => (s, v') :: rest'
    | k => .error ⟨keyPre, k⟩

/-- Sequence clause of `convertToStringKeysRecursive`: recurse into each
element under the prefix extended with `[<index>]`. -/
def convertList : List RawVal → String → Nat → Except ConvErr (List GoVal)
  | [], _, _ => .ok []
  | v :: rest, keyPre, i =>
    (convertToStringKeysRecursive v (keyPre ++ "[" ++ toString i ++ "]")).bind
      fun v' => (convertList rest keyPre (i + 1)).map fun rest' => v' :: rest'

end

mutual

/-- Does a raw value contain a non-string mapping key anywhere? -/
def RawVal.hasNonStrKey : RawVal → Bool
  | .map xs => hasNonStrKeyEntries xs
  | .list xs => hasNonStrKeyList xs
  | _ => false

/-- Entry-list clause of `RawVal.hasNonStrKey`. -/
def hasNonStrKeyEntries : List (RawKey × RawVal) → Bool
  | [] => false
  | (k, v) :: rest => !k.isStr || v.hasNonStrKey || hasNonStrKeyEntries rest

/-- Element-list clause of `RawVal.hasNonStrKey`. -/
def hasNonStrKeyList : List RawVal → Bool
  | [] => false
  | v :: rest => v.hasNonStrKey || hasNonStrKeyList rest

end

/-! ### String helpers mirroring the Go standard library -/

/-- Go `strings.HasPrefix`. -/
def strStartsWith (s pat : String) : Bool :=
  pat.data.isPrefixOf s.data

/-- Does the string contain the character? -/
def containsChar (s : String) (c : Char) : Bool :=
  s.data.contains c

/-- Drop the first `n` characters. -/
def strDrop (s : String) (n : Nat) : String :=
  ⟨s.data.drop n⟩

/-- Split at the first occurrence of `sep`, keeping everything after it. -/
def splitFirstAux (sep : Char) : List Char → Option (List Char × List Char)
  | [] => none
  | c :: cs =>
    if c = sep then some ([], cs)
    else (splitFirstAux sep cs).map fun p => (c :: p.1, p.2)

/-- Go `strings.SplitN(s, sep, 2)` for the single-character separators the
loader passes (`"="`, `":"`): `(s, none)` when `sep` does not occur,
otherwise the pieces before and after its first occurrence. -/
def goSplitFirst (s : String) (sep : Char) : String × Option String :=
  match splitFirstAux sep s.data with
  | none => (s, none)
  | some (a, b) => (⟨a⟩, some ⟨b⟩)

/-- ASCII uppercase test, the `[A-Z]` part of `fieldNameRegexp`. -/
def isUpperCh (c : Char) : Bool :=
  'A' ≤ c && c ≤ 'Z'

/-- The `[a-z0-9]` part of `fieldNameRegexp`. -/
def isLowerDigitCh (c : Char) : Bool :=
  ('a' ≤ c && c ≤ 'z') || ('0' ≤ c && c ≤ '9')

/-- ASCII lowercasing as done by `strings.ToLower` on the matched segments. -/
def lowerCh (c : Char) : Char :=
  if isUpperCh c then Char.ofNat (c.toNat + 32) else c

/-- Scanner for `fieldNameRegexp` matches: `cur` holds the reversed
characters of a candidate match in progress (an uppercase letter and the
lowercase/digit run after it); a candidate is emitted only when it reached
length at least two, i.e. the `+` of the regexp matched. -/
def fieldMatchesGo : Option (List Char) → List Char → List (List Char)
  | cur, [] =>
    match cur with
    | some seg => if 2 ≤ seg.length then [seg.reverse] else []
    | none => []
  | cur, c :: cs =>
    match cur with
    | some seg =>
      if isLowerDigitCh c then fieldMatchesGo (some (c :: seg)) cs
      else
        (if 2 ≤ seg.length then [seg.reverse] else []) ++
          (if isUpperCh c then fieldMatchesGo (some [c]) cs else fieldMatchesGo none cs)
    | none =>
      if isUpperCh c then fieldMatchesGo (some [c]) cs else fieldMatchesGo none cs

/-- Leftmost non-overlapping matches of `fieldNameRegexp`
(`[A-Z][a-z0-9]+`, loader.go:20): an uppercase letter followed by a maximal
nonempty run of lowercase letters or digits. -/
def fieldNameMatches (l : List Char) : List (List Char) :=
  fieldMatchesGo none l

/-- Embedding of `toYAMLName` (loader.go:330-336): regexp matches of the
field name, lowercased and joined with `_`. -/
def toYAMLName (name : String) : String :=
  String.intercalate "_" ((fieldNameMatches name.data).map fun seg => String.mk (seg.map lowerCh))

/-! ### Go `fmt.Sprint` on document values -/

/-- Insert a rendered map entry keeping keys sorted (Go `fmt` prints map
keys in sorted order). -/
def insertPairSorted (p : String × String) : List (String × String) → List (String × String)
  | [] => [p]
  | q :: rest => if p.1 ≤ q.1 then p :: q :: rest else q :: insertPairSorted p rest

/-- Sort rendered map entries by key. -/
def sortPairs : List (String × String) → List (String × String)
  | [] => []
  | p :: rest => insertPairSorted p (sortPairs rest)

mutual

/-- Go `fmt.Sprint` of an `interface{}` document value. -/
def goSprint : GoVal → String
  | .null => "<nil>"
  | .bool b => if b then "true" else "false"
  | .int n => toString n
  | .float r => r
  | .str s => s
  | .list xs => "[" ++ String.intercalate " " (goSprintList xs) ++ "]"
  | .dict xs =>
    "map[" ++
      String.intercalate " "
        ((sortPairs (goSprintPairs xs)).map fun p => p.1 ++ ":" ++ p.2)
      ++ "]"

/-- Element clause of `goSprint`. -/
def goSprintList : List GoVal → List String
  | [] => []
  | v :: rest => goSprint v :: goSprintList rest

/-- Entry clause of `goSprint`. -/
def goSprintPairs : List (String × GoVal) → List (String × String)
  | [] => []
  | (k, v) :: rest => (k, goSprint v) :: goSprintPairs rest

end

/-- Embedding of `toString` (loader.go:450-456): `nil` becomes the empty
string, everything else its `fmt.Sprint` rendering. -/
def toStringGo : GoVal → String
  | .null => ""
  | v => goSprint v

/-! ### Go `path.Clean` / `path.Join` (used by `resolveVolumePaths`) -/

/-- Split a character list on a separator, keeping empty groups. -/
def splitOnChar (sep : Char) : List Char → List (List Char)
  | [] => [[]]
  | c :: cs =>
    if c = sep then [] :: splitOnChar sep cs
    else
      match splitOnChar sep cs with
      | [] => [[c]]
      | g :: gs => (c :: g) :: gs

/-- Element processing of `path.Clean`: drop empty and `.` components,
resolve `..` against the accumulated output (lexically). -/
def cleanCompsGo (rooted : Bool) (acc : List (List Char)) : List (List Char) → List (List Char)
  | [] => acc.reverse
  | c :: rest =>
    if c = [] || c = ['.'] then cleanCompsGo rooted acc rest
    else if c = ['.', '.'] then
      match acc with
      | [] =>
        if rooted then cleanCompsGo rooted [] rest
        else cleanCompsGo rooted [['.', '.']] rest
      | top :: acctl =>
        if top = ['.', '.'] then cleanCompsGo rooted (c :: acc) rest
        else cleanCompsGo rooted acctl rest
    else cleanCompsGo rooted (c :: acc) rest

/-- Go `path.Clean`: lexical simplification of a slash-separated path. -/
def pathClean (p : String) : String :=
  if p = "" then "."
  else
    let rooted := strStartsWith p "/"
    let comps := cleanCompsGo rooted [] (splitOnChar '/' p.data)
    let out := (if rooted then "/" else "") ++ String.intercalate "/" (comps.map String.mk)
    if out = "" then "." else out

/-- Go `path.Join` of two elements: non-empty elements joined with `/` and
cleaned. -/
def pathJoin (a b : String) : String :=
  if a = "" && b = "" then ""
  else if a = "" then pathClean b
  else if b = "" then pathClean a
  else pathClean (a ++ "/" ++ b)

/-! ### `expandUser` and `resolveVolumePaths` (later loader revision) -/

/-- Go `strings.Replace(s, "~", home, 1)`: replace the first `~`. -/
def replaceFirstTilde (home : String) : List Char → List Char
  | [] => []
  | c :: cs => if c = '~' then home.data ++ cs else c :: replaceFirstTilde home cs

/-- Embedding of `expandUser`: a path starting with `~` has its first `~`
replaced by the home directory.  The Go code reads `os.Getenv("HOME")`;
that environment value is threaded here as the `home` argument. -/
def expandUser (p : String) (home : String) : String :=
  if strStartsWith p "~" then ⟨replaceFirstTilde home p.data⟩ else p

/-- Embedding of `resolveVolumePaths`: each volume mount is split at the
first `:`; entries without `:` are left alone; otherwise a source starting
with `.` is joined against the working directory, the (possibly joined)
source is passed through `expandUser`, and the pieces are rejoined. -/
def resolveVolumePaths (volumes : List String) (workingDir home : String) : List String :=
  volumes.map fun mapping =>
    match goSplitFirst mapping ':' with
    | (_, none) => mapping
    | (src, some rest) =>
      let src1 := if strStartsWith src "." then pathJoin workingDir src else src
      expandUser src1 home ++ ":" ++ rest

/-! ### Modelled external primitives -/

/-- Modelled from the spec: the POSIX shell-word splitting primitive
(`shellwords.Parse`, an external library not part of this repository):
split on spaces honoring single quotes, double quotes and backslash
escapes; an unterminated quote or trailing backslash is a syntax error. -/
def shellwordsGo : Option Char → Option (List Char) → List Char → Except String (List (List Char))
  | some _, _, [] => .error "invalid command line string"
  | none, cur, [] =>
    .ok (match cur with | none => [] | some w => [w.reverse])
  | some q, cur, c :: cs =>
    if c = q then shellwordsGo none (some (cur.getD [])) cs
    else shellwordsGo (some q) (some (c :: cur.getD [])) cs
  | none, cur, c :: cs =>
    if c = ' ' then
      match cur with
      | none => shellwordsGo none none cs
      | some w => (shellwordsGo none none cs).map (w.reverse :: ·)
    else if c = '\'' || c = '"' then shellwordsGo (some c) (some (cur.getD [])) cs
    else if c = '\\' then
      match cs with
      | [] => .error "invalid command line string"
      | d :: ds => shellwordsGo none (some (d :: cur.getD [])) ds
    else shellwordsGo none (some (c :: cur.getD [])) cs

/-- Modelled from the spec: shell-word splitting entry point. -/
def shellwordsParse (s : String) : Except String (List String) :=
  (shellwordsGo none none s.data).map (List.map String.mk)

/-- Modelled from the spec: the external human-readable byte-size parser
(`units.RAMInBytes`, not part of this repository): a decimal integer with
an optional unit suffix (`b`, `k`/`kb`/`kib`, `m`, `g`, `t`, ...), binary
multipliers; malformed strings are parse errors. -/
def ramInBytes (s : String) : Except String Int :=
  let chars := s.data
  let digits := chars.takeWhile fun c => '0' ≤ c && c ≤ '9'
  let rest := (chars.drop digits.length).map lowerCh
  if digits.isEmpty then .error ("invalid size: " ++ s)
  else
    let n : Nat := digits.foldl (fun acc c => acc * 10 + (c.toNat - '0'.toNat)) 0
    let mult : Option Nat :=
      match rest with
      | [] => some 1
      | ['b'] => some 1
      | ['k'] | ['k', 'b'] | ['k', 'i', 'b'] => some 1024
      | ['m'] | ['m', 'b'] | ['m', 'i', 'b'] => some (1024 ^ 2)
      | ['g'] | ['g', 'b'] | ['g', 'i', 'b'] => some (1024 ^ 3)
      | ['t'] | ['t', 'b'] | ['t', 'i', 'b'] => some (1024 ^ 4)
      | _ => none
    match mult with
    | none => .error ("invalid size: " ++ s)
    | some m => .ok ((n * m : Nat) : Int)

/-! ### The typed configuration model (`types/types.go`)

The struct declarations are taken from `types/types.go`, reconciled with the
revision of the loader under verification (`loader/loader.go` together with
its test suite): `Ulimits` carries the `compose:"-"` skip tag and is decoded
manually by `loadService`; `Logging` is a by-value nested struct decoded by
the generic nested-struct branch; networks and volumes record the resolved
external name in the string field `ExternalName` set by `loadExternalName`
(the checked-in `types.go` snapshot post-dates this loader revision on those
three declarations; its `DomainName`/`mapstructure:"domainname"` declaration
is unchanged across revisions). -/

/-- `types.LoggingConfig`. -/
structure LoggingConfig where
  driver : String := ""
  options : List (String × String) := []
deriving DecidableEq

/-- `types.ServiceNetworkConfig`. -/
structure ServiceNetworkConfig where
  aliases : List String := []
  ipv4Address : String := ""
  ipv6Address : String := ""
deriving DecidableEq

/-- `types.UlimitsConfig`: the Go struct has the three integer fields; the
single-limit shape populates `single`, the soft/hard shape populates
`soft`/`hard`. -/
structure UlimitsConfig where
  single : Int := 0
  soft : Int := 0
  hard : Int := 0
deriving DecidableEq

/-- `types.IPAMPool`. -/
structure IPAMPool where
  subnet : String := ""
deriving DecidableEq

/-- `types.IPAMConfig`. -/
structure IPAMConfig where
  driver : String := ""
  config : List IPAMPool := []
deriving DecidableEq

/-- `types.ServiceConfig` (field order as declared). -/
structure ServiceConfig where
  name : String := ""
  capAdd : List String := []
  capDrop : List String := []
  cgroupParent : String := ""
  command : List String := []
  containerName : String := ""
  dependsOn : List String := []
  devices : List String := []
  dns : List String := []
  dnsSearch : List String := []
  domainName : String := ""
  entrypoint : List String := []
  environment : List (String × String) := []
  envFile : List String := []
  expose : List String := []
  externalLinks : List String := []
  extraHosts : List (String × String) := []
  hostname : String := ""
  image : String := ""
  ipc : String := ""
  labels : List (String × String) := []
  links : List String := []
  logging : LoggingConfig := {}
  macAddress : String := ""
  memLimit : Int := 0
  memswapLimit : Int := 0
  networkMode : String := ""
  networks : List (String × ServiceNetworkConfig) := []
  pid : String := ""
  ports : List String := []
  privileged : Bool := false
  readOnly : Bool := false
  restart : String := ""
  securityOpt : List String := []
  shmSize : Int := 0
  stdinOpen : Bool := false
  stopSignal : String := ""
  tmpfs : List String := []
  tty : Bool := false
  ulimits : List (String × UlimitsConfig) := []
  user : String := ""
  volumes : List String := []
  volumeDriver : String := ""
  workingDir : String := ""
deriving DecidableEq

/-- `types.NetworkConfig`. -/
structure NetworkConfig where
  driver : String := ""
  driverOpts : List (String × String) := []
  ipam : IPAMConfig := {}
  externalName : String := ""
  labels : List (String × String) := []
deriving DecidableEq

/-- `types.VolumeConfig`. -/
structure VolumeConfig where
  driver : String := ""
  driverOpts : List (String × String) := []
  externalName : String := ""
  labels : List (String × String) := []
deriving DecidableEq

/-- `types.Config`: the decode target.  The Go `Networks`/`Volumes` maps are
association lists here; a `nil` Go map is the empty list. -/
structure Config where
  services : List ServiceConfig := []
  networks : List (String × NetworkConfig) := []
  volumes : List (String × VolumeConfig) := []
deriving DecidableEq

/-- `types.ConfigFile`. -/
structure ConfigFile where
  filename : String
  config : Dict

/-- `types.ConfigDetails`. -/
structure ConfigDetails where
  workingDir : String
  configFiles : List ConfigFile
  environment : List (String × String)

/-! ### Errors -/

/-- Error kind of the schema validator (modelled, see `schemaValidate`). -/
inductive SchemaErr where
  | versionMissing
  | invalidVersionType
  | invalid (path : String)
deriving DecidableEq

/-- Terminal outcomes of the loader.  `goPanic` stands for a Go runtime
panic (failed type assertion or explicit `panic(...)`): such an outcome
aborts the process rather than being returned as an `error` value. -/
inductive LoadErr where
  | nonStringKey (e : ConvErr)
  | errMsg (msg : String)
  | schema (e : SchemaErr)
  | unsupportedVersion (v : String)
  | goPanic (msg : String)
deriving DecidableEq

/-! ### Field-policy loaders (`loader/loader.go`) -/

/-- Go type assertion `value.(string)`. -/
def assertString : GoVal → Except LoadErr String
  | .str s => .ok s
  | v => .error (.goPanic ("interface conversion to string: " ++ goSprint v))

/-- Go type assertion `value.(bool)`. -/
def assertBool : GoVal → Except LoadErr Bool
  | .bool b => .ok b
  | v => .error (.goPanic ("interface conversion to bool: " ++ goSprint v))

/-- Go type assertion `value.(int)`. -/
def assertInt : GoVal → Except LoadErr Int
  | .int n => .ok n
  | v => .error (.goPanic ("interface conversion to int: " ++ goSprint v))

/-- Go type assertion `value.(types.Dict)`. -/
def assertDict : GoVal → Except LoadErr Dict
  | .dict d => .ok d
  | v => .error (.goPanic ("interface conversion to types.Dict: " ++ goSprint v))

/-- Go type assertion `value.([]interface{})`. -/
def assertList : GoVal → Except LoadErr (List GoVal)
  | .list xs => .ok xs
  | v => .error (.goPanic ("interface conversion to []interface: " ++ goSprint v))

/-- Go map read followed by a type assertion on the possibly-absent value
(e.g. `limitDict["soft"].(int)`: an absent key yields `nil`, and the
assertion on `nil` panics). -/
def assertIntOpt : Option GoVal → Except LoadErr Int
  | some (.int n) => .ok n
  | some v => .error (.goPanic ("interface conversion to int: " ++ goSprint v))
  | none => .error (.goPanic "interface conversion to int: <nil>")

/-- As `assertIntOpt`, for `value.(types.Dict)["name"].(string)`. -/
def assertStringOpt : Option GoVal → Except LoadErr String
  | some (.str s) => .ok s
  | some v => .error (.goPanic ("interface conversion to string: " ++ goSprint v))
  | none => .error (.goPanic "interface conversion to string: <nil>")

/-- Error-propagating map over a list (the loops in the loaders that abort
on the first error). -/
def eMapM (f : α → Except LoadErr β) : List α → Except LoadErr (List β)
  | [] => .ok []
  | a :: as_ =>
    (f a).bind fun b => (eMapM f as_).map fun bs => b :: bs

/-- One field of the reflection loop of `loadStruct` (loader.go:264-273):
look the document key up in the entity mapping; an absent key leaves the
field at `zero` (`continue`), a present value is dispatched to the field's
policy. -/
def loadField (d : Dict) (key : String) (zero : α) (policy : GoVal → Except LoadErr α) :
    Except LoadErr α :=
  match dlookup d key with
  | none => .ok zero
  | some v => policy v

/-- Embedding of `loadListOfStrings` (loader.go:347-354). -/
def loadListOfStrings (v : GoVal) : Except LoadErr (List String) :=
  (assertList v).bind (eMapM assertString)

/-- Embedding of `loadListOfStringsOrNumbers` (loader.go:394-401):
`fmt.Sprint` of each element. -/
def loadListOfStringsOrNumbers (v : GoVal) : Except LoadErr (List String) :=
  (assertList v).map (List.map goSprint)

/-- Embedding of `loadStringOrListOfStrings` (loader.go:403-409). -/
def loadStringOrListOfStrings (v : GoVal) : Except LoadErr (List String) :=
  match v with
  | .list _ => loadListOfStrings v
  | v => (assertString v).map fun s => [s]

/-- Embedding of `loadStringMapping` (loader.go:338-345): the value must be
a mapping; each entry value is stringified with `toString`. -/
def loadStringMapping (v : GoVal) : Except LoadErr (List (String × String)) :=
  (assertDict v).map (List.map fun kv => (kv.1, toStringGo kv.2))

/-- Embedding of `loadMappingOrList` (loader.go:411-432).  A mapping's
values are stringified with `toString`; a sequence's elements must be
strings and are split at the first separator, a missing separator giving an
empty value; any other shape panics (`"expected a map or a slice"`).  The
loader only passes the single-character separators `=` and `:`. -/
def loadMappingOrList (mappingOrList : GoVal) (sep : Char) :
    Except LoadErr (List (String × String)) :=
  match mappingOrList with
  | .dict m => .ok (m.map fun kv => (kv.1, toStringGo kv.2))
  | .list xs =>
    eMapM (fun item =>
      (assertString item).map fun s =>
        match goSplitFirst s sep with
        | (a, none) => (a, "")
        | (a, some b) => (a, b)) xs
  | v => .error (.goPanic ("expected a map or a slice, got: " ++ goSprint v))

/-- Embedding of `loadShellCommand` (loader.go:434-440): a string is
shell-word split (syntax errors are reported), anything else goes through
`loadListOfStrings`. -/
def loadShellCommand (v : GoVal) : Except LoadErr (List String) :=
  match v with
  | .str s => (shellwordsParse s).mapError .errMsg
  | v => loadListOfStrings v

/-- Embedding of `loadSize` (loader.go:442-448): an `int` is taken as-is,
anything else is asserted to be a string and parsed by the byte-size
primitive (parse errors are reported). -/
def loadSize (v : GoVal) : Except LoadErr Int :=
  match v with
  | .int n => .ok n
  | v => (assertString v).bind fun s => (ramInBytes s).mapError .errMsg

/-- Embedding of `loadUlimits` (loader.go:170-186): the value is asserted
to be a mapping; an `int` entry fills `Single`, any other entry is asserted
to be a mapping whose `soft` and `hard` entries are asserted to be `int`s. -/
def loadUlimits (v : GoVal) : Except LoadErr (List (String × UlimitsConfig)) :=
  (assertDict v).bind <| eMapM fun kv =>
    match kv.2 with
    | .int n => .ok (kv.1, { single := n })
    | item =>
      (assertDict item).bind fun limitDict =>
        (assertIntOpt (dlookup limitDict "soft")).bind fun soft =>
          (assertIntOpt (dlookup limitDict "hard")).map fun hard =>
            (kv.1, { soft := soft, hard := hard })

/-- Embedding of `loadExternalName` (loader.go:246-256): `true` resolves to
the resource's own name, `false` to the empty name; any non-bool value is
asserted to be a mapping whose `name` entry is asserted to be a string. -/
def loadExternalName (resourceName : String) (v : GoVal) : Except LoadErr String :=
  match v with
  | .bool true => .ok resourceName
  | .bool false => .ok ""
  | v => (assertDict v).bind fun d => assertStringOpt (dlookup d "name")

/-- Nested-struct decode of `types.ServiceNetworkConfig` (the
`loadStruct` reflection loop unrolled over its field table). -/
def loadServiceNetworkStruct (d : Dict) : Except LoadErr ServiceNetworkConfig :=
  (loadField d "aliases" [] loadListOfStrings).bind fun aliases =>
    (loadField d "ipv4_address" "" assertString).bind fun ipv4 =>
      (loadField d "ipv6_address" "" assertString).map fun ipv6 =>
        { aliases := aliases, ipv4Address := ipv4, ipv6Address := ipv6 }

/-- Embedding of `loadListOrStructMap` (loader.go:370-392) at element type
`*types.ServiceNetworkConfig`.  In the sequence case the Go code calls
`SetMapIndex` with the zero `reflect.Value`, which checks that the key is a
string (panicking otherwise) and then deletes it, so a sequence produces an
empty map; in the mapping case a `nil` entry produces a zero-valued record
and any other entry is asserted to be a mapping and decoded recursively. -/
def loadServiceNetworks (v : GoVal) : Except LoadErr (List (String × ServiceNetworkConfig)) :=
  match v with
  | .list xs => (eMapM assertString xs).map fun _ => []
  | v =>
    (assertDict v).bind <| eMapM fun kv =>
      match kv.2 with
      | .null => .ok (kv.1, ({} : ServiceNetworkConfig))
      | item =>
        (assertDict item).bind fun d =>
          (loadServiceNetworkStruct d).map fun c => (kv.1, c)

/-- Nested-struct decode of `types.LoggingConfig` (`Driver` plain string,
`Options` a string map). -/
def loadLoggingStruct (d : Dict) : Except LoadErr LoggingConfig :=
  (loadField d "driver" "" assertString).bind fun driver =>
    (loadField d "options" [] loadStringMapping).map fun options =>
      { driver := driver, options := options }

/-- Nested-struct decode of `types.IPAMPool`. -/
def loadIPAMPoolStruct (d : Dict) : Except LoadErr IPAMPool :=
  (loadField d "subnet" "" assertString).map fun subnet => { subnet := subnet }

/-- `loadListOfStructs` (loader.go:356-368) at element type
`*types.IPAMPool`: each element asserted to be a mapping and decoded. -/
def loadIPAMPools (v : GoVal) : Except LoadErr (List IPAMPool) :=
  (assertList v).bind <| eMapM fun item => (assertDict item).bind loadIPAMPoolStruct

/-- Nested-struct decode of `types.IPAMConfig`. -/
def loadIPAMStruct (d : Dict) : Except LoadErr IPAMConfig :=
  (loadField d "driver" "" assertString).bind fun driver =>
    (loadField d "config" [] loadIPAMPools).map fun config =>
      { driver := driver, config := config }

/-- The reflection loop of `loadStruct` (loader.go:258-328) unrolled over
the `types.ServiceConfig` field table, in declaration order.  Each document
key is the value `toYAMLName` computes from the field name (proved below);
each policy is the branch the field's `compose` tag / reflected kind
selects.  `Ulimits` carries the skip tag and is left to `loadService`. -/
def loadServiceStruct (d : Dict) : Except LoadErr ServiceConfig := do
  let name ← loadField d "name" "" assertString
  let capAdd ← loadField d "cap_add" [] loadListOfStrings
  let capDrop ← loadField d "cap_drop" [] loadListOfStrings
  let cgroupParent ← loadField d "cgroup_parent" "" assertString
  let command ← loadField d "command" [] loadShellCommand
  let containerName ← loadField d "container_name" "" assertString
  let dependsOn ← loadField d "depends_on" [] loadListOfStrings
  let devices ← loadField d "devices" [] loadListOfStrings
  let dns ← loadField d "dns" [] loadStringOrListOfStrings
  let dnsSearch ← loadField d "dns_search" [] loadStringOrListOfStrings
  let domainName ← loadField d "domain_name" "" assertString
  let entrypoint ← loadField d "entrypoint" [] loadShellCommand
  let environment ← loadField d "environment" [] (loadMappingOrList · '=')
  let envFile ← loadField d "env_file" [] loadListOfStrings
  let expose ← loadField d "expose" [] loadListOfStringsOrNumbers
  let externalLinks ← loadField d "external_links" [] loadListOfStrings
  let extraHosts ← loadField d "extra_hosts" [] (loadMappingOrList · ':')
  let hostname ← loadField d "hostname" "" assertString
  let image ← loadField d "image" "" assertString
  let ipc ← loadField d "ipc" "" assertString
  let labels ← loadField d "labels" [] (loadMappingOrList · '=')
  let links ← loadField d "links" [] loadListOfStrings
  let logging ← loadField d "logging" {} fun v => (assertDict v).bind loadLoggingStruct
  let macAddress ← loadField d "mac_address" "" assertString
  let memLimit ← loadField d "mem_limit" 0 loadSize
  let memswapLimit ← loadField d "memswap_limit" 0 loadSize
  let networkMode ← loadField d "network_mode" "" assertString
  let networks ← loadField d "networks" [] loadServiceNetworks
  let pid ← loadField d "pid" "" assertString
  let ports ← loadField d "ports" [] loadListOfStringsOrNumbers
  let privileged ← loadField d "privileged" false assertBool
  let readOnly ← loadField d "read_only" false assertBool
  let restart ← loadField d "restart" "" assertString
  let securityOpt ← loadField d "security_opt" [] loadListOfStrings
  let shmSize ← loadField d "shm_size" 0 loadSize
  let stdinOpen ← loadField d "stdin_open" false assertBool
  let stopSignal ← loadField d "stop_signal" "" assertString
  let tmpfs ← loadField d "tmpfs" [] loadStringOrListOfStrings
  let tty ← loadField d "tty" false assertBool
  let user ← loadField d "user" "" assertString
  let volumes ← loadField d "volumes" [] loadListOfStrings
  let volumeDriver ← loadField d "volume_driver" "" assertString
  let workingDir ← loadField d "working_dir" "" assertString
  pure
    { name := name, capAdd := capAdd, capDrop := capDrop, cgroupParent := cgroupParent,
      command := command, containerName := containerName, dependsOn := dependsOn,
      devices := devices, dns := dns, dnsSearch := dnsSearch, domainName := domainName,
      entrypoint := entrypoint, environment := environment, envFile := envFile,
      expose := expose, externalLinks := externalLinks, extraHosts := extraHosts,
      hostname := hostname, image := image, ipc := ipc, labels := labels, links := links,
      logging := logging, macAddress := macAddress, memLimit := memLimit,
      memswapLimit := memswapLimit, networkMode := networkMode, networks := networks,
      pid := pid, ports := ports, privileged := privileged, readOnly := readOnly,
      restart := restart, securityOpt := securityOpt, shmSize := shmSize,
      stdinOpen := stdinOpen, stopSignal := stopSignal, tmpfs := tmpfs, tty := tty,
      user := user, volumes := volumes, volumeDriver := volumeDriver,
      workingDir := workingDir }

/-- Embedding of `loadService` (loader.go:155-168): generic struct decode,
then the map key is injected as `Name`, then `ulimits` is decoded manually
when present. -/
def loadService (name : String) (serviceDict : Dict) : Except LoadErr ServiceConfig :=
  (loadServiceStruct serviceDict).bind fun sc =>
    match dlookup serviceDict "ulimits" with
    | none => .ok { sc with name := name }
    | some v => (loadUlimits v).map fun u => { sc with name := name, ulimits := u }

/-- Embedding of `loadServices` (loader.go:141-153): each entry's value is
asserted to be a mapping and decoded.  (Go iterates the map in
unspecified order; the embedding iterates in list order.) -/
def loadServices (servicesDict : Dict) : Except LoadErr (List ServiceConfig) :=
  eMapM (fun kv => (assertDict kv.2).bind (loadService kv.1)) servicesDict

/-- The `loadStruct` loop unrolled over the `types.NetworkConfig` field
table (`ExternalName` has document key `external_name`, which the schema
never admits; the `external` key is handled by `loadNetwork`). -/
def loadNetworkStruct (d : Dict) : Except LoadErr NetworkConfig := do
  let driver ← loadField d "driver" "" assertString
  let driverOpts ← loadField d "driver_opts" [] loadStringMapping
  let ipam ← loadField d "ipam" {} fun v => (assertDict v).bind loadIPAMStruct
  let externalName ← loadField d "external_name" "" assertString
  let labels ← loadField d "labels" [] (loadMappingOrList · '=')
  pure { driver := driver, driverOpts := driverOpts, ipam := ipam,
         externalName := externalName, labels := labels }

/-- Embedding of `loadNetwork` (loader.go:206-215). -/
def loadNetwork (name : String) (networkDict : Dict) : Except LoadErr NetworkConfig :=
  (loadNetworkStruct networkDict).bind fun network =>
    match dlookup networkDict "external" with
    | none => .ok network
    | some v => (loadExternalName name v).map fun en => { network with externalName := en }

/-- Embedding of `loadNetworks` (loader.go:188-204): a `nil` entry yields a
zero-valued `NetworkConfig`, otherwise the entry is asserted to be a
mapping and decoded. -/
def loadNetworks (networksDict : Dict) : Except LoadErr (List (String × NetworkConfig)) :=
  eMapM (fun kv =>
    match kv.2 with
    | .null => .ok (kv.1, ({} : NetworkConfig))
    | v => (assertDict v).bind fun d => (loadNetwork kv.1 d).map fun n => (kv.1, n)) networksDict

/-- The `loadStruct` loop unrolled over the `types.VolumeConfig` field
table. -/
def loadVolumeStruct (d : Dict) : Except LoadErr VolumeConfig := do
  let driver ← loadField d "driver" "" assertString
  let driverOpts ← loadField d "driver_opts" [] loadStringMapping
  let externalName ← loadField d "external_name" "" assertString
  let labels ← loadField d "labels" [] (loadMappingOrList · '=')
  pure { driver := driver, driverOpts := driverOpts,
         externalName := externalName, labels := labels }

/-- Embedding of `loadVolume` (loader.go:235-244). -/
def loadVolume (name : String) (volumeDict : Dict) : Except LoadErr VolumeConfig :=
  (loadVolumeStruct volumeDict).bind fun volume =>
    match dlookup volumeDict "external" with
    | none => .ok volume
    | some v => (loadExternalName name v).map fun en => { volume with externalName := en }

/-- Embedding of `loadVolumes` (loader.go:217-233). -/
def loadVolumes (volumesDict : Dict) : Except LoadErr (List (String × VolumeConfig)) :=
  eMapM (fun kv =>
    match kv.2 with
    | .null => .ok (kv.1, ({} : VolumeConfig))
    | v => (assertDict v).bind fun d => (loadVolume kv.1 d).map fun vc => (kv.1, vc)) volumesDict

/-! ### Schema validator (modelled)

`schema.Validate` validates the document against the packaged JSON schema
`config_schema_v2.1.json`, which is generated data not present in the
source tree; only its caller is.  The checks below are modelled from the
spec (sections 4.2-4.6 and the per-policy accepted-shape table in 4.4):
`version` must be present and a string; `services`/`networks`/`volumes`
must be mappings of entity bodies (bodies may be `null` for networks and
volumes); each known entity key's value must have its policy's accepted
shape, and unknown entity keys are rejected (the schema is strict). -/

/-- Is the value a string? -/
def isStrB : GoVal → Bool
  | .str _ => true
  | _ => false

/-- Is the value a scalar or null (the shapes `toString` renders)? -/
def isScalarOrNull : GoVal → Bool
  | .null | .bool _ | .int _ | .float _ | .str _ => true
  | _ => false

/-- Accepted shapes of the `StringList` policy. -/
def strListOK : GoVal → Bool
  | .list xs => xs.all isStrB
  | _ => false

/-- Accepted shapes of the `StringOrStringList` policy. -/
def strOrListOK (v : GoVal) : Bool :=
  isStrB v || strListOK v

/-- Accepted shapes of the `NumberOrStringList` policy. -/
def numsListOK : GoVal → Bool
  | .list xs =>
    xs.all fun x =>
      match x with
      | .str _ | .int _ | .float _ => true
      | _ => false
  | _ => false

/-- Accepted shapes of the `ByteSize` policy. -/
def sizeOK : GoVal → Bool
  | .int _ | .str _ => true
  | _ => false

/-- Accepted shapes of the `Bool` scalar policy. -/
def isBoolB : GoVal → Bool
  | .bool _ => true
  | _ => false

/-- A mapping whose values are scalars or null. -/
def dictScalarOK : GoVal → Bool
  | .dict m => m.all fun kv => isScalarOrNull kv.2
  | _ => false

/-- Accepted shapes of the `MappingOrList` policy. -/
def molOK (v : GoVal) : Bool :=
  dictScalarOK v || strListOK v

/-- Accepted shapes of the `ShellCommand` policy. -/
def shellOK (v : GoVal) : Bool :=
  isStrB v || strListOK v

/-- Keyed shape of a `ServiceNetworkConfig` body. -/
def serviceNetworkShape (k : String) (v : GoVal) : Bool :=
  if k = "aliases" then strListOK v
  else if k = "ipv4_address" then isStrB v
  else if k = "ipv6_address" then isStrB v
  else false

/-- Accepted shapes of the `ListOrStructMap` policy at
`ServiceNetworkConfig`. -/
def lsmOK : GoVal → Bool
  | .list xs => xs.all isStrB
  | .dict m =>
    m.all fun kv =>
      match kv.2 with
      | .null => true
      | .dict d => d.all fun e => serviceNetworkShape e.1 e.2
      | _ => false
  | _ => false

/-- Keyed shape of a `LoggingConfig` body. -/
def loggingShape (k : String) (v : GoVal) : Bool :=
  if k = "driver" then isStrB v
  else if k = "options" then dictScalarOK v
  else false

/-- Accepted shape of the `logging` entry. -/
def loggingOK : GoVal → Bool
  | .dict d => d.all fun kv => loggingShape kv.1 kv.2
  | _ => false

/-- Accepted shape of one IPAM pool. -/
def poolOK : GoVal → Bool
  | .dict d => d.all fun kv => if kv.1 = "subnet" then isStrB kv.2 else false
  | _ => false

/-- Keyed shape of an `ipam` body. -/
def ipamShape (k : String) (v : GoVal) : Bool :=
  if k = "driver" then isStrB v
  else if k = "config" then
    match v with
    | .list xs => xs.all poolOK
    | _ => false
  else false

/-- Accepted shape of the `ipam` entry. -/
def ipamOK : GoVal → Bool
  | .dict d => d.all fun kv => ipamShape kv.1 kv.2
  | _ => false

/-- Accepted shape of one ulimits entry: a bare integer, or a mapping with
integer `soft` and `hard` and nothing else. -/
def ulimitEntryOK : GoVal → Bool
  | .int _ => true
  | .dict d =>
    (match dlookup d "soft" with | some (.int _) => true | _ => false) &&
    (match dlookup d "hard" with | some (.int _) => true | _ => false) &&
    d.all fun kv => kv.1 = "soft" || kv.1 = "hard"
  | _ => false

/-- Accepted shape of the `ulimits` entry. -/
def ulimitsOK : GoVal → Bool
  | .dict d => d.all fun kv => ulimitEntryOK kv.2
  | _ => false

/-- Accepted shape of the `external` entry: a boolean, or a mapping with a
string `name` and nothing else. -/
def externalOK : GoVal → Bool
  | .bool _ => true
  | .dict d =>
    (match dlookup d "name" with | some (.str _) => true | _ => false) &&
    d.all fun kv => kv.1 = "name"
  | _ => false

/-- Keyed shape of a service body: the document keys the schema admits and
the accepted shape of each.  Note `domainname` (the declared key of
`DomainName`), not `domain_name`; unknown keys map to `false`. -/
def serviceShape (k : String) (v : GoVal) : Bool :=
  if k = "cap_add" then strListOK v
  else if k = "cap_drop" then strListOK v
  else if k = "cgroup_parent" then isStrB v
  else if k = "command" then shellOK v
  else if k = "container_name" then isStrB v
  else if k = "depends_on" then strListOK v
  else if k = "devices" then strListOK v
  else if k = "dns" then strOrListOK v
  else if k = "dns_search" then strOrListOK v
  else if k = "domainname" then isStrB v
  else if k = "entrypoint" then shellOK v
  else if k = "environment" then molOK v
  else if k = "env_file" then strListOK v
  else if k = "expose" then numsListOK v
  else if k = "external_links" then strListOK v
  else if k = "extra_hosts" then molOK v
  else if k = "hostname" then isStrB v
  else if k = "image" then isStrB v
  else if k = "ipc" then isStrB v
  else if k = "labels" then molOK v
  else if k = "links" then strListOK v
  else if k = "logging" then loggingOK v
  else if k = "mac_address" then isStrB v
  else if k = "mem_limit" then sizeOK v
  else if k = "memswap_limit" then sizeOK v
  else if k = "network_mode" then isStrB v
  else if k = "networks" then lsmOK v
  else if k = "pid" then isStrB v
  else if k = "ports" then numsListOK v
  else if k = "privileged" then isBoolB v
  else if k = "read_only" then isBoolB v
  else if k = "restart" then isStrB v
  else if k = "security_opt" then strListOK v
  else if k = "shm_size" then sizeOK v
  else if k = "stdin_open" then isBoolB v
  else if k = "stop_signal" then isStrB v
  else if k = "tmpfs" then strOrListOK v
  else if k = "tty" then isBoolB v
  else if k = "ulimits" then ulimitsOK v
  else if k = "user" then isStrB v
  else if k = "volumes" then strListOK v
  else if k = "volume_driver" then isStrB v
  else if k = "working_dir" then isStrB v
  else false

/-- Keyed shape of a network body. -/
def networkShape (k : String) (v : GoVal) : Bool :=
  if k = "driver" then isStrB v
  else if k = "driver_opts" then dictScalarOK v
  else if k = "ipam" then ipamOK v
  else if k = "external" then externalOK v
  else if k = "labels" then molOK v
  else false

/-- Keyed shape of a volume body. -/
def volumeShape (k : String) (v : GoVal) : Bool :=
  if k = "driver" then isStrB v
  else if k = "driver_opts" then dictScalarOK v
  else if k = "external" then externalOK v
  else if k = "labels" then molOK v
  else false

/-- First entity key whose value violates its shape. -/
def findBadKey (shape : String → GoVal → Bool) : Dict → Option String
  | [] => none
  | (k, v) :: rest => if shape k v then findBadKey shape rest else some k

/-- Validate one entity body, reporting the first offending key with its
dotted path. -/
def checkEntityDict (path : String) (shape : String → GoVal → Bool) (d : Dict) :
    Except SchemaErr Unit :=
  match findBadKey shape d with
  | none => .ok ()
  | some k => .error (.invalid (path ++ "." ++ k))

/-- Validate a top-level name→body mapping (`services`, `networks`,
`volumes`); bodies must be mappings, or `null` when `allowNull`. -/
def checkEntities (top : String) (shape : String → GoVal → Bool) (allowNull : Bool) :
    List (String × GoVal) → Except SchemaErr Unit
  | [] => .ok ()
  | (n, v) :: rest =>
    match v with
    | .null =>
      if allowNull then checkEntities top shape allowNull rest
      else .error (.invalid (top ++ "." ++ n ++ " must be a mapping"))
    | .dict body =>
      (checkEntityDict (top ++ "." ++ n) shape body).bind fun _ =>
        checkEntities top shape allowNull rest
    | _ => .error (.invalid (top ++ "." ++ n ++ " must be a mapping"))

/-- Modelled from the spec: `schema.Validate` against the packaged
`config_schema_v2.1.json` (generated data, not in the source tree).
Checks, per spec sections 4.2-4.6: `version` present and a string
(absent is a hard error, a non-string is the invalid-version-type error);
`services` a mapping of mappings; `networks`/`volumes` mappings of
mappings-or-null; every entity key known to the schema with its policy's
accepted shape, unknown keys rejected. -/
def schemaValidate (config : Dict) : Except SchemaErr Unit :=
  let versionCheck : Except SchemaErr Unit :=
    match dlookup config "version" with
    | none => .error .versionMissing
    | some (.str _) => .ok ()
    | some _ => .error .invalidVersionType
  let servicesCheck : Except SchemaErr Unit :=
    match dlookup config "services" with
    | none => .ok ()
    | some (.dict svcs) => checkEntities "services" serviceShape false svcs
    | some _ => .error (.invalid "services must be a mapping")
  let networksCheck : Except SchemaErr Unit :=
    match dlookup config "networks" with
    | none => .ok ()
    | some (.dict ns) => checkEntities "networks" networkShape true ns
    | some _ => .error (.invalid "networks must be a mapping")
  let volumesCheck : Except SchemaErr Unit :=
    match dlookup config "volumes" with
    | none => .ok ()
    | some (.dict vs) => checkEntities "volumes" volumeShape true vs
    | some _ => .error (.invalid "volumes must be a mapping")
  versionCheck.bind fun _ =>
    servicesCheck.bind fun _ =>
      networksCheck.bind fun _ => volumesCheck

/-- Embedding of `validateAgainstConfigSchema` (loader.go:94-96). -/
def validateAgainstConfigSchema (file : ConfigFile) : Except LoadErr Unit :=
  (schemaValidate file.config).mapError .schema

/-- Body of `Load` for the single config file (loader.go:55-91): schema
validation, version gate (`version` read with a string type assertion and
compared against `"2.1"`), then the three entity collections, each absent
key leaving its collection empty. -/
def loadFile (file : ConfigFile) : Except LoadErr Config :=
  (validateAgainstConfigSchema file).bind fun _ =>
  (assertStringOpt (dlookup file.config "version")).bind fun version =>
  if version = "2.1" then
    (match dlookup file.config "services" with
     | none => (.ok [] : Except LoadErr (List ServiceConfig))
     | some v => (assertDict v).bind loadServices).bind fun services =>
    (match dlookup file.config "networks" with
     | none => (.ok [] : Except LoadErr (List (String × NetworkConfig)))
     | some v => (assertDict v).bind loadNetworks).bind fun networks =>
    (match dlookup file.config "volumes" with
     | none => (.ok [] : Except LoadErr (List (String × VolumeConfig)))
     | some v => (assertDict v).bind loadVolumes).map fun volumes =>
    { services := services, networks := networks, volumes := volumes }
  else
    .error (.unsupportedVersion version)

/-- Embedding of `Load` (loader.go:47-92): the file-count gate followed by
the single-file pipeline. -/
def Load (configDetails : ConfigDetails) : Except LoadErr Config :=
  match configDetails.configFiles with
  | [] => .error (.errMsg "No files specified")
  | _ :: _ :: _ => .error (.errMsg "Multiple files are not yet supported")
  | [file] => loadFile file

/-- Embedding of `ParseYAML` (loader.go:27-45) after the external YAML
parse: the raw top-level value must be a mapping, is normalized by
`convertToStringKeysRecursive`, and the result is asserted to be a
`types.Dict`. -/
def ParseYAMLv (raw : RawVal) (filename : String) : Except LoadErr ConfigFile :=
  match raw with
  | .map m =>
    ((convertToStringKeysRecursive (.map m) "").mapError .nonStringKey).bind fun converted =>
      match converted with
      | .dict d => .ok ⟨filename, d⟩
      | v => .error (.goPanic ("interface conversion to types.Dict: " ++ goSprint v))
  | _ => .error (.errMsg "Top-level object must be a mapping")

/-- The test-suite helper `buildConfigDetails`: one file, working dir `.`. -/
def buildConfigDetails (d : Dict) : ConfigDetails :=
  ⟨".", [⟨"filename.yml", d⟩], []⟩

/-- The test-suite helper `loadYAML` after YAML parsing: normalize, then
`Load`. -/
def loadRaw (raw : RawVal) : Except LoadErr Config :=
  (ParseYAMLv raw "filename.yml").bind fun file => Load (buildConfigDetails file.config)

/-! ## Support lemmas -/

@[simp] theorem ok_bind (a : α) (f : α → Except ε β) : (Except.ok a).bind f = f a := rfl

@[simp] theorem error_bind (e : ε) (f : α → Except ε β) :
    (Except.error e : Except ε α).bind f = .error e := rfl

@[simp] theorem ok_map (a : α) (g : α → β) : (Except.ok a : Except ε α).map g = .ok (g a) := rfl

@[simp] theorem error_map (e : ε) (g : α → β) :
    (Except.error e : Except ε α).map g = .error e := rfl

/-! ### C1 helpers: a non-string key anywhere makes normalization fail -/

mutual

theorem convert_fails_of_hasNonStrKey :
    ∀ (v : RawVal) (keyPre : String), v.hasNonStrKey = true →
      ∃ e, convertToStringKeysRecursive v keyPre = .error e
  | .map xs, keyPre, h => by
    have h' : hasNonStrKeyEntries xs = true := by
      simpa [RawVal.hasNonStrKey] using h
    obtain ⟨e, he⟩ := convertEntries_fails xs keyPre h'
    exact ⟨e, by simp [convertToStringKeysRecursive, he]⟩
  | .list xs, keyPre, h => by
    have h' : hasNonStrKeyList xs = true := by
      simpa [RawVal.hasNonStrKey] using h
    obtain ⟨e, he⟩ := convertList_fails xs keyPre 0 h'
    exact ⟨e, by simp [convertToStringKeysRecursive, he]⟩
  | .null, _, h => by simp [RawVal.hasNonStrKey] at h
  | .bool _, _, h => by simp [RawVal.hasNonStrKey] at h
  | .int _, _, h => by simp [RawVal.hasNonStrKey] at h
  | .float _, _, h => by simp [RawVal.hasNonStrKey] at h
  | .str _, _, h => by simp [RawVal.hasNonStrKey] at h

theorem convertEntries_fails :
    ∀ (xs : List (RawKey × RawVal)) (keyPre : String), hasNonStrKeyEntries xs = true →
      ∃ e, convertEntries xs keyPre = .error e
  | [], _, h => by simp [hasNonStrKeyEntries] at h
  | (k, v) :: rest, keyPre, h => by
    cases k with
    | str s =>
      have h2 : v.hasNonStrKey = true ∨ hasNonStrKeyEntries rest = true := by
        simpa [hasNonStrKeyEntries, RawKey.isStr] using h
      cases hcv : convertToStringKeysRecursive v (if keyPre = "" then s else keyPre ++ "." ++ s) with
      | error e => exact ⟨e, by simp [convertEntries, hcv]⟩
      | ok v' =>
        rcases h2 with hv | hrest
        · obtain ⟨e, he⟩ := convert_fails_of_hasNonStrKey v _ hv
          rw [he] at hcv
          cases hcv
        · obtain ⟨e, he⟩ := convertEntries_fails rest keyPre hrest
          exact ⟨e, by simp [convertEntries, hcv, he]⟩
    | int n => exact ⟨⟨keyPre, .int n⟩, by simp [convertEntries]⟩
    | bool b => exact ⟨⟨keyPre, .bool b⟩, by simp [convertEntries]⟩

theorem convertList_fails :
    ∀ (xs : List RawVal) (keyPre : String) (i : Nat), hasNonStrKeyList xs = true →
      ∃ e, convertList xs keyPre i = .error e
  | [], _, _, h => by simp [hasNonStrKeyList] at h
  | v :: rest, keyPre, i, h => by
    have h2 : v.hasNonStrKey = true ∨ hasNonStrKeyList rest = true := by
      simpa [hasNonStrKeyList] using h
    cases hcv : convertToStringKeysRecursive v (keyPre ++ "[" ++ toString i ++ "]") with
    | error e => exact ⟨e, by simp [convertList, hcv]⟩
    | ok v' =>
      rcases h2 with hv | hrest
      · obtain ⟨e, he⟩ := convert_fails_of_hasNonStrKey v _ hv
        rw [he] at hcv
        cases hcv
      · obtain ⟨e, he⟩ := convertList_fails rest keyPre (i + 1) hrest
        exact ⟨e, by simp [convertList, hcv, he]⟩

end

/-! ### Example documents -/

/-- Raw document with a non-string key at the top level. -/
def exTopRaw : RawVal :=
  .map [(.str "version", .str "2.1"), (.int 123, .map [(.str "foo", .str "x")])]

/-- Raw document with a non-string key inside `services`. -/
def exServicesRaw : RawVal :=
  .map [(.str "version", .str "2.1"),
        (.str "services",
         .map [(.str "foo", .map [(.str "image", .str "busybox")]),
               (.int 123, .map [(.str "image", .str "busybox")])])]

/-- Raw document with a non-string key inside the `environment` of service
`dict-env`. -/
def exEnvRaw : RawVal :=
  .map [(.str "version", .str "2.1"),
        (.str "services",
         .map [(.str "dict-env",
                .map [(.str "image", .str "busybox"),
                      (.str "environment", .map [(.int 1, .str "FOO")])])])]

/-- Raw document with a non-string key inside the first ipam pool of
network `default`. -/
def exIpamRaw : RawVal :=
  .map [(.str "version", .str "2.1"),
        (.str "services", .map [(.str "foo", .map [(.str "image", .str "busybox")])]),
        (.str "networks",
         .map [(.str "default",
                .map [(.str "ipam",
                       .map [(.str "config",
                              .list [.map [(.int 123, .str "oh dear")]])])])])]

/-! ## C1 -/

/-- C1: any raw document containing a non-string mapping key at any depth
makes normalization (and hence the whole decode) fail with a structural
error carrying the offending key's printed form and the exact path of the
enclosing container: the empty path renders as `at top level`, mapping keys
extend the path with a dot, sequence elements with `[index]` (a non-string
key inside `services` reports path `services`, inside the environment of
service `dict-env` reports `services.dict-env.environment`, inside the
first ipam pool of network `default` reports
`networks.default.ipam.config[0]`). -/
theorem c1_non_string_keys :
    (∀ (raw : RawVal) (keyPre : String), raw.hasNonStrKey = true →
        ∃ e, convertToStringKeysRecursive raw keyPre = .error e) ∧
    convertToStringKeysRecursive exTopRaw "" = .error ⟨"", .int 123⟩ ∧
    ConvErr.location ⟨"", .int 123⟩ = "at top level" ∧
    ConvErr.message ⟨"", .int 123⟩ = "Non-string key at top level: 123" ∧
    convertToStringKeysRecursive exServicesRaw "" = .error ⟨"services", .int 123⟩ ∧
    ConvErr.message ⟨"services", .int 123⟩ = "Non-string key in services: 123" ∧
    convertToStringKeysRecursive exEnvRaw "" = .error ⟨"services.dict-env.environment", .int 1⟩ ∧
    ConvErr.message ⟨"services.dict-env.environment", .int 1⟩ =
      "Non-string key in services.dict-env.environment: 1" ∧
    convertToStringKeysRecursive exIpamRaw "" =
      .error ⟨"networks.default.ipam.config[0]", .int 123⟩ ∧
    ConvErr.message ⟨"networks.default.ipam.config[0]", .int 123⟩ =
      "Non-string key in networks.default.ipam.config[0]: 123" ∧
    loadRaw exEnvRaw = .error (.nonStringKey ⟨"services.dict-env.environment", .int 1⟩) :=
  ⟨convert_fails_of_hasNonStrKey, rfl, rfl, rfl, rfl, rfl, rfl, rfl, rfl, rfl, rfl⟩

/-- Witness for C1: the general clause applied at a concrete raw document. -/
theorem c1_non_string_keys_witness :
    exTopRaw.hasNonStrKey = true ∧
    ∃ e, convertToStringKeysRecursive exTopRaw "" = .error e :=
  ⟨rfl, c1_non_string_keys.1 exTopRaw "" rfl⟩

/-! ## C2 -/

/-- Service block `{foo: {image: busybox}}` shared by the sample
documents. -/
def svcFooBody : GoVal := .dict [("foo", .dict [("image", .str "busybox")])]

/-- Document with the given `version` value over a fixed valid service. -/
def verDoc (v : GoVal) : Dict := [("version", v), ("services", svcFooBody)]

/-- Document with no `version` key at all. -/
def noVersionDoc : Dict := [("services", svcFooBody)]

/-- The decode of `verDoc` when the version gate passes. -/
def verDocConfig : Config :=
  { services := [{ name := "foo", image := "busybox" }], networks := [], volumes := [] }

/-- C2: the version gate passes exactly for the string `"2.1"`: any other
string (also numerically close ones such as `"2"` and `"2.0"`) fails with
the unsupported-version error, a non-string value (the unquoted YAML number
`2.1`) fails with the invalid-version-type error, and an absent `version`
key is a hard error rather than being defaulted. -/
theorem c2_version_gate :
    (∀ s : String, s ≠ "2.1" →
        Load (buildConfigDetails (verDoc (.str s))) = .error (.unsupportedVersion s)) ∧
    Load (buildConfigDetails (verDoc (.str "2.1"))) = .ok verDocConfig ∧
    Load (buildConfigDetails (verDoc (.str "2"))) = .error (.unsupportedVersion "2") ∧
    Load (buildConfigDetails (verDoc (.str "2.0"))) = .error (.unsupportedVersion "2.0") ∧
    Load (buildConfigDetails (verDoc (.float "2.1"))) = .error (.schema .invalidVersionType) ∧
    Load (buildConfigDetails noVersionDoc) = .error (.schema .versionMissing) := by
  refine ⟨?_, rfl, rfl, rfl, rfl, rfl⟩
  intro s hs
  have h1 : Load (buildConfigDetails (verDoc (.str s))) =
      if s = "2.1" then .ok verDocConfig else .error (.unsupportedVersion s) := rfl
  rw [h1, if_neg hs]

/-- Witness for C2: the general unsupported-version clause applied at the
concrete version string `"3"`. -/
theorem c2_version_gate_witness :
    ("3" : String) ≠ "2.1" ∧
    Load (buildConfigDetails (verDoc (.str "3"))) = .error (.unsupportedVersion "3") :=
  ⟨by decide, c2_version_gate.1 "3" (by decide)⟩

/-! ## C3 -/

/-- Document that is schema-invalid (`image` is a number) and has the
unsupported version string `"2"` at the same time. -/
def bothBadDoc : Dict :=
  [("version", .str "2"), ("services", .dict [("foo", .dict [("image", .int 5)])])]

/-- C3 counterexample: a document that is both schema-invalid and carries
an unsupported version string fails with the schema error, not the version
error — `Load` calls the schema validator before reading `version`
(loader.go:58 before loader.go:62), while the claim (and spec section 2)
puts the version gate before the schema validator. -/
theorem c3_stage_order_counterexample :
    Load (buildConfigDetails bothBadDoc) = .error (.schema (.invalid "services.foo.image")) ∧
    ∀ v, Load (buildConfigDetails bothBadDoc) ≠ .error (.unsupportedVersion v) := by
  refine ⟨rfl, fun v h => ?_⟩
  rw [show Load (buildConfigDetails bothBadDoc) =
        .error (.schema (.invalid "services.foo.image")) from rfl] at h
  simp at h

/-- Service block whose entrypoint fails shell-word splitting during entity
assembly (an unterminated quote), while being schema-valid. -/
def shellBadBody : GoVal :=
  .dict [("foo", .dict [("image", .str "busybox"), ("entrypoint", .str "foo 'bar")])]

/-- Raw document with a non-string key, a bad version and a schema-invalid
service all at once. -/
def allBadRaw : RawVal :=
  .map [(.str "version", .str "2"), (.int 123, .str "x"),
        (.str "services", .map [(.str "foo", .map [(.str "image", .int 5)])])]

/-- C3 amended: the actual stage order is normalization, then the Schema
Validator, then the Version Gate, then entity assembly.  A document failing
at several stages reports the earliest stage's error: normalization beats
everything; the schema error beats both the version error and assembly
errors; the version error beats assembly errors; with all gates passed an
assembly error (here a shell-split failure) surfaces. -/
theorem c3_stage_order :
    loadRaw allBadRaw = .error (.nonStringKey ⟨"", .int 123⟩) ∧
    Load (buildConfigDetails bothBadDoc) = .error (.schema (.invalid "services.foo.image")) ∧
    Load (buildConfigDetails
        [("version", .str "2.1"),
         ("services", .dict [("foo", .dict [("image", .int 5), ("entrypoint", .str "foo 'bar")])])]) =
      .error (.schema (.invalid "services.foo.image")) ∧
    Load (buildConfigDetails [("version", .str "2"), ("services", shellBadBody)]) =
      .error (.unsupportedVersion "2") ∧
    Load (buildConfigDetails [("version", .str "2.1"), ("services", shellBadBody)]) =
      .error (.errMsg "invalid command line string") :=
  ⟨rfl, rfl, rfl, rfl, rfl⟩

/-! ## C4 -/

/-- C4 counterexample: a non-scalar mapping value is not rejected by the
`MappingOrList` coercion at all — `{"FOO": ["1"]}` succeeds, the value
stringified by `fmt.Sprint` to `"[1]"` — where the claim demands a
TypeMismatch error. -/
theorem c4_nonscalar_counterexample :
    loadMappingOrList (.dict [("FOO", .list [.str "1"])]) '=' = .ok [("FOO", "[1]")] ∧
    ∀ e, loadMappingOrList (.dict [("FOO", .list [.str "1"])]) '=' ≠ .error e := by
  refine ⟨rfl, fun e h => ?_⟩
  rw [show loadMappingOrList (.dict [("FOO", .list [.str "1"])]) '=' =
        .ok [("FOO", "[1]")] from rfl] at h
  simp at h

/-- Fully decodable document whose `environment` mapping has a non-scalar
value. -/
def envBadDoc : Dict :=
  [("version", .str "2.1"),
   ("services",
    .dict [("dict-env",
            .dict [("image", .str "busybox"),
                   ("environment", .dict [("FOO", .list [.str "1"])])])])]

/-- C4 amended: the positive examples hold as claimed
(`["FOO=1"] ↦ {FOO: 1}`, `["QUUX"] ↦ {QUUX: ""}`,
`{FOO: 1, QUUX: null} ↦ {FOO: "1", QUUX: ""}`); but a non-string sequence
item makes the coercion panic (a failed type assertion, not a reported
error), and a non-scalar mapping value is not rejected by the coercion — it
is stringified with Go's default formatting.  In the full `Load` pipeline
such shapes are rejected earlier, by the schema gate. -/
theorem c4_mapping_or_list :
    loadMappingOrList (.list [.str "FOO=1"]) '=' = .ok [("FOO", "1")] ∧
    loadMappingOrList (.list [.str "QUUX"]) '=' = .ok [("QUUX", "")] ∧
    loadMappingOrList (.dict [("FOO", .int 1), ("QUUX", .null)]) '=' =
      .ok [("FOO", "1"), ("QUUX", "")] ∧
    loadMappingOrList (.list [.int 1]) '=' =
      .error (.goPanic "interface conversion to string: 1") ∧
    loadMappingOrList (.dict [("FOO", .list [.str "1"])]) '=' = .ok [("FOO", "[1]")] ∧
    Load (buildConfigDetails envBadDoc) =
      .error (.schema (.invalid "services.dict-env.environment")) :=
  ⟨rfl, rfl, rfl, rfl, rfl, rfl⟩

/-! ## C5 -/

/-- Document with only `version` and `services`: no top-level `networks` or
`volumes` keys. -/
def svcOnlyDoc : Dict := [("version", .str "2.1"), ("services", svcFooBody)]

/-- Document with a `null` entity body under `networks`. -/
def nullNetDoc : Dict := [("version", .str "2.1"), ("networks", .dict [("mynet", .null)])]

/-- C5: absence is never an error.  A field whose document key is absent is
left at its zero value by the field engine; a document without top-level
`networks`/`volumes` keys loads with empty collections; a `null` entity
body under `networks` yields a fully zero-valued `NetworkConfig` under that
name; a service carrying only `image` decodes with every other field at its
zero value. -/
theorem c5_absence_zero :
    (∀ (α : Type) (d : Dict) (key : String) (zero : α)
        (policy : GoVal → Except LoadErr α),
        dlookup d key = none → loadField d key zero policy = .ok zero) ∧
    Load (buildConfigDetails svcOnlyDoc) =
      .ok { services := [{ name := "foo", image := "busybox" }], networks := [], volumes := [] } ∧
    Load (buildConfigDetails nullNetDoc) =
      .ok { services := [], networks := [("mynet", ({} : NetworkConfig))], volumes := [] } ∧
    loadService "foo" [("image", .str "busybox")] = .ok { name := "foo", image := "busybox" } := by
  refine ⟨?_, rfl, rfl, rfl⟩
  intro α d key zero policy h
  unfold loadField
  rw [h]

/-- Witness for C5: the absence clause applied at a concrete mapping, key
and policy. -/
theorem c5_absence_zero_witness :
    dlookup ([("a", GoVal.null)] : Dict) "b" = none ∧
    loadField ([("a", GoVal.null)] : Dict) "b" (0 : Int) assertInt = .ok 0 :=
  ⟨rfl, c5_absence_zero.1 Int [("a", GoVal.null)] "b" 0 assertInt rfl⟩

/-! ## C6 -/

/-- The end-to-end ulimits document of the claim. -/
def ulimitsDoc : Dict :=
  [("version", .str "2.1"),
   ("services",
    .dict [("foo",
            .dict [("image", .str "redis"),
                   ("ulimits",
                    .dict [("nproc", .int 65535),
                           ("nofile", .dict [("soft", .int 20000), ("hard", .int 40000)])])])])]

/-- Document with a single ulimits entry of the given shape. -/
def ulimitsDocWith (v : GoVal) : Dict :=
  [("version", .str "2.1"),
   ("services",
    .dict [("foo", .dict [("image", .str "redis"), ("ulimits", .dict [("nproc", v)])])])]

/-- C6: ulimits decoding is shape-dependent per entry: an integer value
fills the single-limit field, a mapping with integer `soft`/`hard` fills
the soft/hard pair, and any other entry shape makes the decode fail with a
reported error (the schema gate's), not a crash. -/
theorem c6_ulimits :
    Load (buildConfigDetails ulimitsDoc) =
      .ok { services :=
              [{ name := "foo", image := "redis",
                 ulimits := [("nproc", { single := 65535 }),
                             ("nofile", { soft := 20000, hard := 40000 })] }],
            networks := [], volumes := [] } ∧
    (∀ n : Int, Load (buildConfigDetails (ulimitsDocWith (.int n))) =
        .ok { services := [{ name := "foo", image := "redis",
                             ulimits := [("nproc", { single := n })] }],
              networks := [], volumes := [] }) ∧
    (∀ soft hard : Int,
        Load (buildConfigDetails
            (ulimitsDocWith (.dict [("soft", .int soft), ("hard", .int hard)]))) =
          .ok { services := [{ name := "foo", image := "redis",
                               ulimits := [("nproc", { soft := soft, hard := hard })] }],
                networks := [], volumes := [] }) ∧
    (∀ v : GoVal, ulimitEntryOK v = false →
        Load (buildConfigDetails (ulimitsDocWith v)) =
          .error (.schema (.invalid "services.foo.ulimits"))) := by
  refine ⟨rfl, fun n => rfl, fun soft hard => rfl, fun v hv => ?_⟩
  have h1 : findBadKey serviceShape
      [("image", .str "redis"), ("ulimits", .dict [("nproc", v)])] = some "ulimits" := by
    rw [show findBadKey serviceShape
          [("image", .str "redis"), ("ulimits", .dict [("nproc", v)])] =
        if (ulimitEntryOK v && true) = true then none else some "ulimits" from rfl, hv]
    simp
  have h2 : schemaValidate (ulimitsDocWith v) = .error (.invalid "services.foo.ulimits") := by
    simp [schemaValidate, ulimitsDocWith, dlookup, checkEntities, checkEntityDict, h1]
  simp [Load, loadFile, buildConfigDetails, validateAgainstConfigSchema, h2, Except.mapError]

/-- Witness for C6: the rejection clause applied at the concrete non-shape
`"high"`. -/
theorem c6_ulimits_witness :
    ulimitEntryOK (.str "high") = false ∧
    Load (buildConfigDetails (ulimitsDocWith (.str "high"))) =
      .error (.schema (.invalid "services.foo.ulimits")) :=
  ⟨rfl, c6_ulimits.2.2.2 (.str "high") rfl⟩

/-! ## C7 -/

/-- Schema-valid document using the declared document key `domainname`. -/
def domainnameDoc : Dict :=
  [("version", .str "2.1"),
   ("services", .dict [("foo", .dict [("image", .str "busybox"),
                                      ("domainname", .str "example.com")])])]

/-- Document using the derived key `domain_name` instead. -/
def domainUnderscoreDoc : Dict :=
  [("version", .str "2.1"),
   ("services", .dict [("foo", .dict [("image", .str "busybox"),
                                      ("domain_name", .str "example.com")])])]

/-- C7: the name transform derives `container_name` from `ContainerName` as
claimed, but the loader never honors the declared per-field override — it
derives `domain_name` from `DomainName` and looks that up, so the declared
key `domainname` is ignored (a schema-valid document carrying
`domainname: example.com` decodes with `DomainName` left empty), while the
derived key `domain_name` is not schema-valid at all.  The `DomainName`
field is therefore dead as coded. -/
theorem c7_domainname_dead :
    toYAMLName "ContainerName" = "container_name" ∧
    toYAMLName "DomainName" = "domain_name" ∧
    toYAMLName "DomainName" ≠ "domainname" ∧
    Load (buildConfigDetails domainnameDoc) =
      .ok { services := [{ name := "foo", domainName := "", image := "busybox" }],
            networks := [], volumes := [] } ∧
    Load (buildConfigDetails domainUnderscoreDoc) =
      .error (.schema (.invalid "services.foo.domain_name")) :=
  ⟨rfl, rfl, by decide, rfl, rfl⟩

/-! ## C8 -/

theorem strData_append (a b : String) : (a ++ b).data = a.data ++ b.data := rfl

theorem splitFirstAux_of_not_contains (c : Char) :
    ∀ (l : List Char), l.contains c = false → splitFirstAux c l = none
  | [], _ => rfl
  | a :: l, h => by
    have h' : ¬c = a ∧ c ∉ l := by simpa [List.contains_cons] using h
    have ha : ¬a = c := fun hh => h'.1 hh.symm
    have hl : l.contains c = false := by simpa using h'.2
    simp [splitFirstAux, ha, splitFirstAux_of_not_contains c l hl]

theorem splitFirstAux_append (c : Char) :
    ∀ (l r : List Char), l.contains c = false → splitFirstAux c (l ++ c :: r) = some (l, r)
  | [], r, _ => by simp [splitFirstAux]
  | a :: l, r, h => by
    have h' : ¬c = a ∧ c ∉ l := by simpa [List.contains_cons] using h
    have ha : ¬a = c := fun hh => h'.1 hh.symm
    have hl : l.contains c = false := by simpa using h'.2
    simp [splitFirstAux, ha, splitFirstAux_append c l r hl]

theorem goSplitFirst_none (s : String) (c : Char) (h : containsChar s c = false) :
    goSplitFirst s c = (s, none) := by
  unfold goSplitFirst
  rw [splitFirstAux_of_not_contains c s.data h]

theorem goSplitFirst_append (src rest : String) (h : containsChar src ':' = false) :
    goSplitFirst (src ++ ":" ++ rest) ':' = (src, some rest) := by
  unfold goSplitFirst
  have hd : (src ++ ":" ++ rest).data = src.data ++ ':' :: rest.data := by
    rw [strData_append, strData_append, List.append_assoc]
    rfl
  rw [hd, splitFirstAux_append ':' src.data rest.data h]

/-- Follows the claim's wording (spec section 4.7): a source path starting
with `.` is joined against the working directory, a source path starting
with `~` is expanded to the home directory, and every other source path
(and the rest of each mount entry) is left unchanged. -/
def resolveVolumePathsClaimed (volumes : List String) (workingDir home : String) : List String :=
  volumes.map fun mapping =>
    match goSplitFirst mapping ':' with
    | (_, none) => mapping
    | (src, some rest) =>
      let src1 :=
        if strStartsWith src "." then pathJoin workingDir src
        else if strStartsWith src "~" then home ++ strDrop src 1
        else src
      src1 ++ ":" ++ rest

/-- C8 counterexample: with working directory `~` the code joins the
`.`-prefixed source against it and then additionally home-expands the
joined result, so the decoded mount differs from the claim's description,
under which the source is only joined. -/
theorem c8_tilde_workdir_counterexample :
    resolveVolumePaths ["./a:/data"] "~" "/home/u" = ["/home/u/a:/data"] ∧
    resolveVolumePathsClaimed ["./a:/data"] "~" "/home/u" = ["~/a:/data"] ∧
    resolveVolumePaths ["./a:/data"] "~" "/home/u" ≠
      resolveVolumePathsClaimed ["./a:/data"] "~" "/home/u" :=
  ⟨rfl, rfl, by decide⟩

/-- C8 amended: per mount entry (source without `:`, rest arbitrary): a
source starting with `.` is joined against the working directory and the
joined result is then passed through home expansion, so whenever the
joined result does not start with `~` the claim's pure join holds; a
source starting with `~` has the `~` replaced by the home directory; any
other source, the rest of the entry, and entries without `:` are left
unchanged; entries are processed independently. -/
theorem c8_resolve_paths :
    (∀ (wd home src rest : String), containsChar src ':' = false →
      (strStartsWith src "." = true →
        resolveVolumePaths [src ++ ":" ++ rest] wd home =
          [expandUser (pathJoin wd src) home ++ ":" ++ rest]) ∧
      (strStartsWith src "." = true → strStartsWith (pathJoin wd src) "~" = false →
        resolveVolumePaths [src ++ ":" ++ rest] wd home = [pathJoin wd src ++ ":" ++ rest]) ∧
      (strStartsWith src "~" = true →
        resolveVolumePaths [src ++ ":" ++ rest] wd home =
          [(home ++ strDrop src 1) ++ ":" ++ rest]) ∧
      (strStartsWith src "." = false → strStartsWith src "~" = false →
        resolveVolumePaths [src ++ ":" ++ rest] wd home = [src ++ ":" ++ rest])) ∧
    (∀ (wd home e : String), containsChar e ':' = false →
      resolveVolumePaths [e] wd home = [e]) ∧
    (∀ (wd home : String) (vols1 vols2 : List String),
      resolveVolumePaths (vols1 ++ vols2) wd home =
        resolveVolumePaths vols1 wd home ++ resolveVolumePaths vols2 wd home) := by
  refine ⟨fun wd home src rest hsrc => ⟨?_, ?_, ?_, ?_⟩, fun wd home e he => ?_, fun _ _ _ _ => ?_⟩
  · intro hdot
    simp [resolveVolumePaths, goSplitFirst_append src rest hsrc, hdot]
  · intro hdot hnotilde
    simp [resolveVolumePaths, goSplitFirst_append src rest hsrc, hdot, expandUser, hnotilde]
  · intro htilde
    obtain ⟨t, ht⟩ : ∃ t, src.data = '~' :: t := by
      cases hsd : src.data with
      | nil => rw [strStartsWith, hsd] at htilde; simp [List.isPrefixOf] at htilde
      | cons c cs =>
        rw [strStartsWith, hsd] at htilde
        simp [List.isPrefixOf] at htilde
        exact ⟨cs, by rw [htilde]⟩
    have hdot : strStartsWith src "." = false := by
      rw [strStartsWith, ht]
      simp [List.isPrefixOf]
    simp only [resolveVolumePaths, List.map, goSplitFirst_append src rest hsrc, hdot,
      Bool.false_eq_true, if_false]
    have he : expandUser src home = home ++ strDrop src 1 := by
      rw [expandUser, if_pos (by rw [htilde])]
      have hL : replaceFirstTilde home src.data = home.data ++ t := by
        rw [ht]
        simp [replaceFirstTilde]
      have hR : (home ++ strDrop src 1).data = home.data ++ t := by
        rw [strData_append, strDrop, ht]
        simp
      show String.mk (replaceFirstTilde home src.data) =
        String.mk ((home ++ strDrop src 1).data)
      exact congrArg String.mk (hL.trans hR.symm)
    rw [he]
  · intro hdot htilde
    simp [resolveVolumePaths, goSplitFirst_append src rest hsrc, hdot, expandUser, htilde]
  · simp [resolveVolumePaths, goSplitFirst_none e ':' he]
  · simp [resolveVolumePaths]

/-- Witness for C8: the `.`-source clause applied at a concrete mount. -/
theorem c8_resolve_paths_witness :
    containsChar "./static" ':' = false ∧
    strStartsWith "./static" "." = true ∧
    resolveVolumePaths ["./static" ++ ":" ++ "/var/www"] "/code" "/home/u" =
      [expandUser (pathJoin "/code" "./static") "/home/u" ++ ":" ++ "/var/www"] :=
  ⟨rfl, rfl, (c8_resolve_paths.1 "/code" "/home/u" "./static" "/var/www" rfl).1 rfl⟩

/-! ## C9

A Go mapping carries no entry order, and `loadServices` (loader.go:144)
builds the services slice by ranging over one, so the association-list
order of the embedding stands for the iteration order the Go runtime does
not fix.  Two decode runs over the same mapping are therefore two runs over
permuted association lists. -/

/-- Service body used by the reordering example. -/
def permBodyA : GoVal := .dict [("image", .str "busybox")]

/-- Second service body used by the reordering example. -/
def permBodyB : GoVal := .dict [("image", .str "redis")]

/-- A document whose `services` mapping lists `alpha` before `beta`. -/
def permDoc1 : Dict :=
  [("version", .str "2.1"),
   ("services", .dict [("alpha", permBodyA), ("beta", permBodyB)])]

/-- The same document with the two `services` entries in the other order. -/
def permDoc2 : Dict :=
  [("version", .str "2.1"),
   ("services", .dict [("beta", permBodyB), ("alpha", permBodyA)])]

/-- Decode of the `alpha` service. -/
def permSvcA : ServiceConfig := { name := "alpha", image := "busybox" }

/-- Decode of the `beta` service. -/
def permSvcB : ServiceConfig := { name := "beta", image := "redis" }

/-- C9 counterexample: the two documents carry the same `services` mapping
(their entry lists are permutations of one another — in Go, one map value),
yet the two decode runs produce `Config` values that are not structurally
equal: the services slice inherits the iteration order.  The decoded
services agree up to that reordering. -/
theorem c9_map_order_counterexample :
    ([("alpha", permBodyA), ("beta", permBodyB)] : Dict).Perm
      [("beta", permBodyB), ("alpha", permBodyA)] ∧
    Load (buildConfigDetails permDoc1) =
      .ok { services := [permSvcA, permSvcB], networks := [], volumes := [] } ∧
    Load (buildConfigDetails permDoc2) =
      .ok { services := [permSvcB, permSvcA], networks := [], volumes := [] } ∧
    ({ services := [permSvcA, permSvcB], networks := [], volumes := [] } : Config) ≠
      { services := [permSvcB, permSvcA], networks := [], volumes := [] } ∧
    ([permSvcA, permSvcB] : List ServiceConfig).Perm [permSvcB, permSvcA] :=
  ⟨List.Perm.swap _ _ _, rfl, rfl, by decide, List.Perm.swap _ _ _⟩

theorem eMapM_of_ok {f : α → Except LoadErr β} {g : α → β} :
    ∀ {xs : List α}, (∀ a ∈ xs, f a = .ok (g a)) → eMapM f xs = .ok (xs.map g)
  | [], _ => rfl
  | a :: as_, h => by
    have h1 := h a (List.mem_cons_self a as_)
    have h2 := eMapM_of_ok (f := f) (g := g) fun x hx => h x (List.mem_cons_of_mem a hx)
    show (f a).bind _ = _
    rw [h1, ok_bind, h2, ok_map]
    rfl

/-- C9 amended: decode is a pure, deterministic function of the document
representation plus the working-directory and home-directory inputs — two
runs on the identical representation yield equal `Config` values, and no
other ambient state is read — but the "same normalized document" is a
mapping whose entry order the runtime does not fix, and the services slice
inherits that order: over permuted representations of the same `services`
mapping, each entry decodes to the same `ServiceConfig` and the decoded
lists are permutations of one another, so the resulting `Config` values
agree only up to the ordering of the services list. -/
theorem c9_decode_deterministic_up_to_order :
    (∀ (cd : ConfigDetails) (c1 c2 : Config),
        Load cd = .ok c1 → Load cd = .ok c2 → c1 = c2) ∧
    (∀ (svcs1 svcs2 : Dict) (g : String × GoVal → ServiceConfig),
        svcs1.Perm svcs2 →
        (∀ kv ∈ svcs1, (assertDict kv.2).bind (loadService kv.1) = .ok (g kv)) →
        loadServices svcs1 = .ok (svcs1.map g) ∧
        loadServices svcs2 = .ok (svcs2.map g) ∧
        (svcs1.map g).Perm (svcs2.map g)) := by
  constructor
  · intro cd c1 c2 h1 h2
    rw [h1] at h2
    exact Except.ok.inj h2
  · intro svcs1 svcs2 g hperm hok
    have hok2 : ∀ kv ∈ svcs2, (assertDict kv.2).bind (loadService kv.1) = .ok (g kv) :=
      fun kv hkv => hok kv (hperm.mem_iff.mpr hkv)
    exact ⟨eMapM_of_ok hok, eMapM_of_ok hok2, hperm.map g⟩

/-- Per-entry decode function for the C9 witness. -/
def permG : String × GoVal → ServiceConfig :=
  fun kv => if kv.1 = "alpha" then permSvcA else permSvcB

/-- Witness for C9: the permutation clause applied at the two concrete
`services` representations. -/
theorem c9_decode_deterministic_up_to_order_witness :
    loadServices [("alpha", permBodyA), ("beta", permBodyB)] = .ok [permSvcA, permSvcB] ∧
    loadServices [("beta", permBodyB), ("alpha", permBodyA)] = .ok [permSvcB, permSvcA] ∧
    ([permSvcA, permSvcB] : List ServiceConfig).Perm [permSvcB, permSvcA] := by
  obtain ⟨h1, h2, h3⟩ :=
    c9_decode_deterministic_up_to_order.2
      [("alpha", permBodyA), ("beta", permBodyB)]
      [("beta", permBodyB), ("alpha", permBodyA)]
      permG (List.Perm.swap _ _ _)
      (fun kv hkv => by
        rcases List.mem_cons.mp hkv with rfl | hkv
        · rfl
        · rcases List.mem_cons.mp hkv with rfl | hkv
          · rfl
          · simp at hkv)
  exact ⟨h1, h2, h3⟩

/-! ## C10 helpers: panic-freedom of `Load` -/

/-- The outcome is not a Go runtime panic. -/
def NotPanic : Except LoadErr α → Prop
  | .error (.goPanic _) => False
  | _ => True

theorem notPanic_ok (a : α) : NotPanic (Except.ok a : Except LoadErr α) := trivial

theorem ne_goPanic_of_notPanic {x : Except LoadErr α} (h : NotPanic x) (m : String) :
    x ≠ .error (.goPanic m) := fun hx => by rw [hx] at h; exact h

theorem notPanic_bind {x : Except LoadErr α} {f : α → Except LoadErr β}
    (h1 : NotPanic x) (h2 : ∀ a, NotPanic (f a)) : NotPanic (x.bind f) := by
  cases x with
  | ok a => exact h2 a
  | error e =>
    cases e
    case goPanic m => exact False.elim h1
    all_goals trivial

theorem notPanic_bindDo {x : Except LoadErr α} {f : α → Except LoadErr β}
    (h1 : NotPanic x) (h2 : ∀ a, NotPanic (f a)) : NotPanic (x >>= f) :=
  notPanic_bind h1 h2

theorem notPanic_okBind {a : α} {f : α → Except LoadErr β} (h : NotPanic (f a)) :
    NotPanic ((Except.ok a).bind f) := h

theorem notPanic_map (g : α → β) {x : Except LoadErr α} (h : NotPanic x) :
    NotPanic (x.map g) := by
  cases x with
  | ok a => trivial
  | error e =>
    cases e
    case goPanic m => exact False.elim h
    all_goals trivial

theorem notPanic_mapError_errMsg (x : Except String α) :
    NotPanic (x.mapError LoadErr.errMsg) := by
  cases x <;> trivial

theorem notPanic_eMapM {f : α → Except LoadErr β} :
    ∀ {xs : List α}, (∀ a ∈ xs, NotPanic (f a)) → NotPanic (eMapM f xs)
  | [], _ => trivial
  | a :: as_, h =>
    notPanic_bind (h a (List.mem_cons_self a as_)) fun _ =>
      notPanic_map _ (notPanic_eMapM fun x hx => h x (List.mem_cons_of_mem a hx))

theorem notPanic_loadField {d : Dict} {key : String} {zero : α}
    {policy : GoVal → Except LoadErr α}
    (h : ∀ v, dlookup d key = some v → NotPanic (policy v)) :
    NotPanic (loadField d key zero policy) := by
  unfold loadField
  cases hv : dlookup d key with
  | none => trivial
  | some v => exact h v hv

theorem dlookup_all {P : String × α → Bool} :
    ∀ {d : List (String × α)}, d.all P = true →
      ∀ {k : String} {v : α}, dlookup d k = some v → P (k, v) = true := by
  intro d
  induction d with
  | nil => intro _ k v h; simp [dlookup] at h
  | cons kv rest ih =>
    intro hall k v h
    obtain ⟨k', v'⟩ := kv
    rw [List.all_cons, Bool.and_eq_true] at hall
    unfold dlookup at h
    by_cases hk : k' = k
    · rw [if_pos hk] at h
      injection h with h'
      subst hk
      subst h'
      exact hall.1
    · rw [if_neg hk] at h
      exact ih hall.2 h

/-! Per-policy panic-freedom under the policy's accepted shape. -/

theorem notPanic_assertString {v : GoVal} (h : isStrB v = true) : NotPanic (assertString v) := by
  cases v
  case str s => trivial
  all_goals simp [isStrB] at h

theorem notPanic_assertBool {v : GoVal} (h : isBoolB v = true) : NotPanic (assertBool v) := by
  cases v
  case bool b => trivial
  all_goals simp [isBoolB] at h

theorem notPanic_loadListOfStrings {v : GoVal} (h : strListOK v = true) :
    NotPanic (loadListOfStrings v) := by
  cases v
  case list xs =>
    have hx : ∀ x ∈ xs, isStrB x = true := by
      simpa [strListOK, List.all_eq_true] using h
    exact notPanic_eMapM fun a ha => notPanic_assertString (hx a ha)
  all_goals simp [strListOK] at h

theorem notPanic_loadListOfStringsOrNumbers {v : GoVal} (h : numsListOK v = true) :
    NotPanic (loadListOfStringsOrNumbers v) := by
  cases v
  case list xs => exact notPanic_ok _
  all_goals simp [numsListOK] at h

theorem notPanic_loadStringOrListOfStrings {v : GoVal} (h : strOrListOK v = true) :
    NotPanic (loadStringOrListOfStrings v) := by
  cases v
  case str s => trivial
  case list xs =>
    have h' : strListOK (GoVal.list xs) = true := by
      simpa [strOrListOK, isStrB] using h
    exact notPanic_loadListOfStrings h'
  all_goals simp [strOrListOK, isStrB, strListOK] at h

theorem notPanic_loadShellCommand {v : GoVal} (h : shellOK v = true) :
    NotPanic (loadShellCommand v) := by
  cases v
  case str s => exact notPanic_mapError_errMsg _
  case list xs =>
    have h' : strListOK (GoVal.list xs) = true := by
      simpa [shellOK, isStrB] using h
    exact notPanic_loadListOfStrings h'
  all_goals simp [shellOK, isStrB, strListOK] at h

theorem notPanic_loadSize {v : GoVal} (h : sizeOK v = true) : NotPanic (loadSize v) := by
  cases v
  case int n => trivial
  case str s => exact notPanic_mapError_errMsg _
  all_goals simp [sizeOK] at h

theorem notPanic_loadStringMapping {v : GoVal} (h : dictScalarOK v = true) :
    NotPanic (loadStringMapping v) := by
  cases v
  case dict d => exact notPanic_ok _
  all_goals simp [dictScalarOK] at h

theorem notPanic_loadMappingOrList {v : GoVal} (sep : Char) (h : molOK v = true) :
    NotPanic (loadMappingOrList v sep) := by
  cases v
  case dict d => trivial
  case list xs =>
    have hx : ∀ x ∈ xs, isStrB x = true := by
      simpa [molOK, dictScalarOK, strListOK, List.all_eq_true] using h
    exact notPanic_eMapM fun a ha => notPanic_map _ (notPanic_assertString (hx a ha))
  all_goals simp [molOK, dictScalarOK, strListOK] at h

theorem notPanic_loadLoggingField {v : GoVal} (h : loggingOK v = true) :
    NotPanic ((assertDict v).bind loadLoggingStruct) := by
  cases v
  case dict d =>
    have hall : d.all (fun kv => loggingShape kv.1 kv.2) = true := by
      simpa [loggingOK, List.all_eq_true] using h
    have hs : ∀ k v', dlookup d k = some v' → loggingShape k v' = true :=
      fun _ _ hl => dlookup_all hall hl
    refine notPanic_okBind ?_
    unfold loadLoggingStruct
    refine notPanic_bind (notPanic_loadField fun v' hv => ?_) fun _ =>
      notPanic_map _ (notPanic_loadField fun v' hv => ?_)
    · exact notPanic_assertString (by simpa [loggingShape] using hs _ _ hv)
    · exact notPanic_loadStringMapping (by simpa [loggingShape] using hs _ _ hv)
  all_goals simp [loggingOK] at h

theorem notPanic_loadIPAMPools {v : GoVal}
    (h : (match v with | .list xs => xs.all poolOK | _ => false) = true) :
    NotPanic (loadIPAMPools v) := by
  cases v
  case list xs =>
    have hx : ∀ x ∈ xs, poolOK x = true := by
      simpa [List.all_eq_true] using h
    refine notPanic_okBind (notPanic_eMapM fun a ha => ?_)
    have hp := hx a ha
    cases a
    case dict pd =>
      have hall : pd.all (fun kv => if kv.1 = "subnet" then isStrB kv.2 else false) = true := by
        simpa [poolOK, List.all_eq_true] using hp
      refine notPanic_okBind ?_
      unfold loadIPAMPoolStruct
      refine notPanic_map _ (notPanic_loadField fun v' hv => ?_)
      have h' := dlookup_all hall hv
      simp at h'
      exact notPanic_assertString h'
    all_goals simp [poolOK] at hp
  all_goals simp at h

theorem notPanic_loadIPAMField {v : GoVal} (h : ipamOK v = true) :
    NotPanic ((assertDict v).bind loadIPAMStruct) := by
  cases v
  case dict d =>
    have hall : d.all (fun kv => ipamShape kv.1 kv.2) = true := by
      simpa [ipamOK, List.all_eq_true] using h
    have hs : ∀ k v', dlookup d k = some v' → ipamShape k v' = true :=
      fun _ _ hl => dlookup_all hall hl
    refine notPanic_okBind ?_
    unfold loadIPAMStruct
    refine notPanic_bind (notPanic_loadField fun v' hv => ?_) fun _ =>
      notPanic_map _ (notPanic_loadField fun v' hv => ?_)
    · exact notPanic_assertString (by simpa [ipamShape] using hs _ _ hv)
    · exact notPanic_loadIPAMPools (by simpa [ipamShape] using hs _ _ hv)
  all_goals simp [ipamOK] at h

theorem notPanic_loadServiceNetworkStruct {body : Dict}
    (hall : body.all (fun e => serviceNetworkShape e.1 e.2) = true) :
    NotPanic (loadServiceNetworkStruct body) := by
  have hs : ∀ k v', dlookup body k = some v' → serviceNetworkShape k v' = true :=
    fun _ _ hl => dlookup_all hall hl
  unfold loadServiceNetworkStruct
  refine notPanic_bind (notPanic_loadField fun v' hv => ?_) fun _ =>
    notPanic_bind (notPanic_loadField fun v' hv => ?_) fun _ =>
      notPanic_map _ (notPanic_loadField fun v' hv => ?_)
  · exact notPanic_loadListOfStrings (by simpa [serviceNetworkShape] using hs _ _ hv)
  · exact notPanic_assertString (by simpa [serviceNetworkShape] using hs _ _ hv)
  · exact notPanic_assertString (by simpa [serviceNetworkShape] using hs _ _ hv)

theorem notPanic_loadServiceNetworks {v : GoVal} (h : lsmOK v = true) :
    NotPanic (loadServiceNetworks v) := by
  cases v
  case list xs =>
    have hx : ∀ x ∈ xs, isStrB x = true := by
      simpa [lsmOK, List.all_eq_true] using h
    exact notPanic_map _ (notPanic_eMapM fun a ha => notPanic_assertString (hx a ha))
  case dict m =>
    have hx : ∀ kv ∈ m,
        (match kv.2 with
         | GoVal.null => true
         | GoVal.dict d => d.all fun e => serviceNetworkShape e.1 e.2
         | _ => false) = true := by
      simpa [lsmOK, List.all_eq_true] using h
    refine notPanic_okBind (notPanic_eMapM fun kv hkv => ?_)
    have hkvs := hx kv hkv
    cases hv2 : kv.2
    case null => trivial
    case dict body =>
      rw [hv2] at hkvs
      have hall : body.all (fun e => serviceNetworkShape e.1 e.2) = true := by
        simpa using hkvs
      exact notPanic_okBind (notPanic_map _ (notPanic_loadServiceNetworkStruct hall))
    all_goals rw [hv2] at hkvs; simp at hkvs
  all_goals simp [lsmOK] at h

theorem notPanic_assertIntOpt {o : Option GoVal}
    (h : (match o with | some (.int _) => true | _ => false) = true) :
    NotPanic (assertIntOpt o) := by
  match o with
  | some (.int n) => exact notPanic_ok n
  | none => simp at h
  | some .null | some (.bool _) | some (.float _) | some (.str _)
  | some (.list _) | some (.dict _) => simp at h

theorem notPanic_loadUlimits {v : GoVal} (h : ulimitsOK v = true) :
    NotPanic (loadUlimits v) := by
  cases v
  case dict d =>
    have hx : ∀ kv ∈ d, ulimitEntryOK kv.2 = true := by
      simpa [ulimitsOK, List.all_eq_true] using h
    refine notPanic_okBind (notPanic_eMapM fun kv hkv => ?_)
    have hkvs := hx kv hkv
    cases hv2 : kv.2
    case int n => trivial
    case dict ld =>
      rw [hv2] at hkvs
      simp only [ulimitEntryOK, Bool.and_eq_true] at hkvs
      refine notPanic_okBind ?_
      exact notPanic_bind (notPanic_assertIntOpt hkvs.1.1) fun _ =>
        notPanic_map _ (notPanic_assertIntOpt hkvs.1.2)
    all_goals rw [hv2] at hkvs; simp [ulimitEntryOK] at hkvs
  all_goals simp [ulimitsOK] at h

theorem notPanic_loadExternalName {v : GoVal} (name : String) (h : externalOK v = true) :
    NotPanic (loadExternalName name v) := by
  cases v
  case bool b => cases b <;> trivial
  case dict d =>
    simp only [externalOK, Bool.and_eq_true] at h
    refine notPanic_okBind ?_
    show NotPanic (assertStringOpt (dlookup d "name"))
    match hn : dlookup d "name" with
    | some (.str s) => exact notPanic_ok s
    | none => rw [hn] at h; simp at h
    | some .null | some (.bool _) | some (.int _) | some (.float _)
    | some (.list _) | some (.dict _) => rw [hn] at h; simp at h
  all_goals simp [externalOK] at h

/-! Inversion of the validator. -/

theorem bindOk_inv {x : Except ε α} {f : α → Except ε β} {b : β}
    (h : x.bind f = .ok b) : ∃ a, x = .ok a ∧ f a = .ok b := by
  cases x with
  | ok a => exact ⟨a, rfl, h⟩
  | error e => rw [error_bind] at h; simp at h

theorem findBadKey_none {shape : String → GoVal → Bool} :
    ∀ {d : Dict}, findBadKey shape d = none → d.all (fun kv => shape kv.1 kv.2) = true := by
  intro d
  induction d with
  | nil => intro _; rfl
  | cons kv rest ih =>
    intro h
    obtain ⟨k, v⟩ := kv
    unfold findBadKey at h
    by_cases hsok : shape k v
    · rw [if_pos hsok] at h
      simp [List.all_cons, hsok, ih h]
    · rw [if_neg hsok] at h
      simp at h

theorem checkEntityDict_ok {path : String} {shape : String → GoVal → Bool} {d : Dict}
    (h : checkEntityDict path shape d = .ok ()) :
    d.all (fun kv => shape kv.1 kv.2) = true := by
  unfold checkEntityDict at h
  cases hf : findBadKey shape d with
  | none => exact findBadKey_none hf
  | some k => rw [hf] at h; simp at h

theorem checkEntities_ok {top : String} {shape : String → GoVal → Bool} {allowNull : Bool} :
    ∀ {entries : List (String × GoVal)},
      checkEntities top shape allowNull entries = .ok () →
      ∀ kv ∈ entries, (kv.2 = GoVal.null ∧ allowNull = true) ∨
        ∃ body, kv.2 = GoVal.dict body ∧ body.all (fun e => shape e.1 e.2) = true := by
  intro entries
  induction entries with
  | nil => intro _ kv hkv; simp at hkv
  | cons e rest ih =>
    intro h kv hkv
    obtain ⟨n, v⟩ := e
    unfold checkEntities at h
    rcases List.mem_cons.mp hkv with heq | hmem
    · subst heq
      cases v with
      | null =>
        cases hA : allowNull with
        | true => exact Or.inl ⟨rfl, rfl⟩
        | false => subst hA; simp at h
      | dict body =>
        obtain ⟨u, hu, _⟩ := bindOk_inv h
        cases u
        exact Or.inr ⟨body, rfl, checkEntityDict_ok hu⟩
      | bool b => simp at h
      | int m => simp at h
      | float r => simp at h
      | str s => simp at h
      | list xs => simp at h
    · cases v with
      | null =>
        cases hA : allowNull with
        | true => subst hA; exact ih h kv hmem
        | false => subst hA; simp at h
      | dict body =>
        obtain ⟨u, _, hrest⟩ := bindOk_inv h
        cases u
        exact ih hrest kv hmem
      | bool b => simp at h
      | int m => simp at h
      | float r => simp at h
      | str s => simp at h
      | list xs => simp at h

theorem schemaValidate_ok {config : Dict} (h : schemaValidate config = .ok ()) :
    (∃ s, dlookup config "version" = some (.str s)) ∧
    (∀ sv, dlookup config "services" = some sv →
      ∃ entries, sv = GoVal.dict entries ∧
        checkEntities "services" serviceShape false entries = .ok ()) ∧
    (∀ nv, dlookup config "networks" = some nv →
      ∃ entries, nv = GoVal.dict entries ∧
        checkEntities "networks" networkShape true entries = .ok ()) ∧
    (∀ vv, dlookup config "volumes" = some vv →
      ∃ entries, vv = GoVal.dict entries ∧
        checkEntities "volumes" volumeShape true entries = .ok ()) := by
  unfold schemaValidate at h
  cases hv : dlookup config "version" with
  | none => rw [hv] at h; simp at h
  | some vval =>
    rw [hv] at h
    cases vval
    case null => simp at h
    case bool b => simp at h
    case int n => simp at h
    case float r => simp at h
    case list xs => simp at h
    case dict xs => simp at h
    case str s =>
    rw [ok_bind] at h
    obtain ⟨u1, hu1, h⟩ := bindOk_inv h
    cases u1
    obtain ⟨u2, hu2, hu3⟩ := bindOk_inv h
    cases u2
    refine ⟨⟨s, rfl⟩, ?_, ?_, ?_⟩
    · intro sv hsv
      rw [hsv] at hu1
      cases sv
      case dict entries => exact ⟨entries, rfl, hu1⟩
      all_goals simp at hu1
    · intro nv hnv
      rw [hnv] at hu2
      cases nv
      case dict entries => exact ⟨entries, rfl, hu2⟩
      all_goals simp at hu2
    · intro vv hvv
      rw [hvv] at hu3
      cases vv
      case dict entries => exact ⟨entries, rfl, hu3⟩
      all_goals simp at hu3

/-! Panic-freedom of the entity loaders. -/

theorem notPanic_loadServiceStruct {d : Dict}
    (hall : d.all (fun kv => serviceShape kv.1 kv.2) = true) :
    NotPanic (loadServiceStruct d) := by
  have hs : ∀ k v, dlookup d k = some v → serviceShape k v = true :=
    fun _ _ hl => dlookup_all hall hl
  unfold loadServiceStruct
  refine notPanic_bindDo (notPanic_loadField fun v hv => ?_) fun _ => ?_
  · have h := hs _ _ hv; simp [serviceShape] at h
  refine notPanic_bindDo (notPanic_loadField fun v hv => ?_) fun _ => ?_
  · exact notPanic_loadListOfStrings (by simpa [serviceShape] using hs _ _ hv)
  refine notPanic_bindDo (notPanic_loadField fun v hv => ?_) fun _ => ?_
  · exact notPanic_loadListOfStrings (by simpa [serviceShape] using hs _ _ hv)
  refine notPanic_bindDo (notPanic_loadField fun v hv => ?_) fun _ => ?_
  · exact notPanic_assertString (by simpa [serviceShape] using hs _ _ hv)
  refine notPanic_bindDo (notPanic_loadField fun v hv => ?_) fun _ => ?_
  · exact notPanic_loadShellCommand (by simpa [serviceShape] using hs _ _ hv)
  refine notPanic_bindDo (notPanic_loadField fun v hv => ?_) fun _ => ?_
  · exact notPanic_assertString (by simpa [serviceShape] using hs _ _ hv)
  refine notPanic_bindDo (notPanic_loadField fun v hv => ?_) fun _ => ?_
  · exact notPanic_loadListOfStrings (by simpa [serviceShape] using hs _ _ hv)
  refine notPanic_bindDo (notPanic_loadField fun v hv => ?_) fun _ => ?_
  · exact notPanic_loadListOfStrings (by simpa [serviceShape] using hs _ _ hv)
  refine notPanic_bindDo (notPanic_loadField fun v hv => ?_) fun _ => ?_
  · exact notPanic_loadStringOrListOfStrings (by simpa [serviceShape] using hs _ _ hv)
  refine notPanic_bindDo (notPanic_loadField fun v hv => ?_) fun _ => ?_
  · exact notPanic_loadStringOrListOfStrings (by simpa [serviceShape] using hs _ _ hv)
  refine notPanic_bindDo (notPanic_loadField fun v hv => ?_) fun _ => ?_
  · have h := hs _ _ hv; simp [serviceShape] at h
  refine notPanic_bindDo (notPanic_loadField fun v hv => ?_) fun _ => ?_
  · exact notPanic_loadShellCommand (by simpa [serviceShape] using hs _ _ hv)
  refine notPanic_bindDo (notPanic_loadField fun v hv => ?_) fun _ => ?_
  · exact notPanic_loadMappingOrList '=' (by simpa [serviceShape] using hs _ _ hv)
  refine notPanic_bindDo (notPanic_loadField fun v hv => ?_) fun _ => ?_
  · exact notPanic_loadListOfStrings (by simpa [serviceShape] using hs _ _ hv)
  refine notPanic_bindDo (notPanic_loadField fun v hv => ?_) fun _ => ?_
  · exact notPanic_loadListOfStringsOrNumbers (by simpa [serviceShape] using hs _ _ hv)
  refine notPanic_bindDo (notPanic_loadField fun v hv => ?_) fun _ => ?_
  · exact notPanic_loadListOfStrings (by simpa [serviceShape] using hs _ _ hv)
  refine notPanic_bindDo (notPanic_loadField fun v hv => ?_) fun _ => ?_
  · exact notPanic_loadMappingOrList ':' (by simpa [serviceShape] using hs _ _ hv)
  refine notPanic_bindDo (notPanic_loadField fun v hv => ?_) fun _ => ?_
  · exact notPanic_assertString (by simpa [serviceShape] using hs _ _ hv)
  refine notPanic_bindDo (notPanic_loadField fun v hv => ?_) fun _ => ?_
  · exact notPanic_assertString (by simpa [serviceShape] using hs _ _ hv)
  refine notPanic_bindDo (notPanic_loadField fun v hv => ?_) fun _ => ?_
  · exact notPanic_assertString (by simpa [serviceShape] using hs _ _ hv)
  refine notPanic_bindDo (notPanic_loadField fun v hv => ?_) fun _ => ?_
  · exact notPanic_loadMappingOrList '=' (by simpa [serviceShape] using hs _ _ hv)
  refine notPanic_bindDo (notPanic_loadField fun v hv => ?_) fun _ => ?_
  · exact notPanic_loadListOfStrings (by simpa [serviceShape] using hs _ _ hv)
  refine notPanic_bindDo (notPanic_loadField fun v hv => ?_) fun _ => ?_
  · exact notPanic_loadLoggingField (by simpa [serviceShape] using hs _ _ hv)
  refine notPanic_bindDo (notPanic_loadField fun v hv => ?_) fun _ => ?_
  · exact notPanic_assertString (by simpa [serviceShape] using hs _ _ hv)
  refine notPanic_bindDo (notPanic_loadField fun v hv => ?_) fun _ => ?_
  · exact notPanic_loadSize (by simpa [serviceShape] using hs _ _ hv)
  refine notPanic_bindDo (notPanic_loadField fun v hv => ?_) fun _ => ?_
  · exact notPanic_loadSize (by simpa [serviceShape] using hs _ _ hv)
  refine notPanic_bindDo (notPanic_loadField fun v hv => ?_) fun _ => ?_
  · exact notPanic_assertString (by simpa [serviceShape] using hs _ _ hv)
  refine notPanic_bindDo (notPanic_loadField fun v hv => ?_) fun _ => ?_
  · exact notPanic_loadServiceNetworks (by simpa [serviceShape] using hs _ _ hv)
  refine notPanic_bindDo (notPanic_loadField fun v hv => ?_) fun _ => ?_
  · exact notPanic_assertString (by simpa [serviceShape] using hs _ _ hv)
  refine notPanic_bindDo (notPanic_loadField fun v hv => ?_) fun _ => ?_
  · exact notPanic_loadListOfStringsOrNumbers (by simpa [serviceShape] using hs _ _ hv)
  refine notPanic_bindDo (notPanic_loadField fun v hv => ?_) fun _ => ?_
  · exact notPanic_assertBool (by simpa [serviceShape] using hs _ _ hv)
  refine notPanic_bindDo (notPanic_loadField fun v hv => ?_) fun _ => ?_
  · exact notPanic_assertBool (by simpa [serviceShape] using hs _ _ hv)
  refine notPanic_bindDo (notPanic_loadField fun v hv => ?_) fun _ => ?_
  · exact notPanic_assertString (by simpa [serviceShape] using hs _ _ hv)
  refine notPanic_bindDo (notPanic_loadField fun v hv => ?_) fun _ => ?_
  · exact notPanic_loadListOfStrings (by simpa [serviceShape] using hs _ _ hv)
  refine notPanic_bindDo (notPanic_loadField fun v hv => ?_) fun _ => ?_
  · exact notPanic_loadSize (by simpa [serviceShape] using hs _ _ hv)
  refine notPanic_bindDo (notPanic_loadField fun v hv => ?_) fun _ => ?_
  · exact notPanic_assertBool (by simpa [serviceShape] using hs _ _ hv)
  refine notPanic_bindDo (notPanic_loadField fun v hv => ?_) fun _ => ?_
  · exact notPanic_assertString (by simpa [serviceShape] using hs _ _ hv)
  refine notPanic_bindDo (notPanic_loadField fun v hv => ?_) fun _ => ?_
  · exact notPanic_loadStringOrListOfStrings (by simpa [serviceShape] using hs _ _ hv)
  refine notPanic_bindDo (notPanic_loadField fun v hv => ?_) fun _ => ?_
  · exact notPanic_assertBool (by simpa [serviceShape] using hs _ _ hv)
  refine notPanic_bindDo (notPanic_loadField fun v hv => ?_) fun _ => ?_
  · exact notPanic_assertString (by simpa [serviceShape] using hs _ _ hv)
  refine notPanic_bindDo (notPanic_loadField fun v hv => ?_) fun _ => ?_
  · exact notPanic_loadListOfStrings (by simpa [serviceShape] using hs _ _ hv)
  refine notPanic_bindDo (notPanic_loadField fun v hv => ?_) fun _ => ?_
  · exact notPanic_assertString (by simpa [serviceShape] using hs _ _ hv)
  refine notPanic_bindDo (notPanic_loadField fun v hv => ?_) fun _ => ?_
  · exact notPanic_assertString (by simpa [serviceShape] using hs _ _ hv)
  exact notPanic_ok _

theorem notPanic_loadService {body : Dict} (name : String)
    (hall : body.all (fun kv => serviceShape kv.1 kv.2) = true) :
    NotPanic (loadService name body) := by
  unfold loadService
  refine notPanic_bind (notPanic_loadServiceStruct hall) fun sc => ?_
  cases hu : dlookup body "ulimits" with
  | none => trivial
  | some v =>
    have h := dlookup_all hall hu
    exact notPanic_map _ (notPanic_loadUlimits (by simpa [serviceShape] using h))

theorem notPanic_loadServices {svcs : Dict}
    (h : ∀ kv ∈ svcs, ∃ body, kv.2 = GoVal.dict body ∧
        body.all (fun e => serviceShape e.1 e.2) = true) :
    NotPanic (loadServices svcs) := by
  unfold loadServices
  refine notPanic_eMapM fun kv hkv => ?_
  obtain ⟨body, hb, hall⟩ := h kv hkv
  rw [hb]
  exact notPanic_okBind (notPanic_loadService kv.1 hall)

theorem notPanic_loadNetwork {d : Dict} (name : String)
    (hall : d.all (fun kv => networkShape kv.1 kv.2) = true) :
    NotPanic (loadNetwork name d) := by
  have hs : ∀ k v, dlookup d k = some v → networkShape k v = true :=
    fun _ _ hl => dlookup_all hall hl
  unfold loadNetwork loadNetworkStruct
  refine notPanic_bind ?_ fun network => ?_
  · refine notPanic_bindDo (notPanic_loadField fun v hv => ?_) fun _ => ?_
    · exact notPanic_assertString (by simpa [networkShape] using hs _ _ hv)
    refine notPanic_bindDo (notPanic_loadField fun v hv => ?_) fun _ => ?_
    · exact notPanic_loadStringMapping (by simpa [networkShape] using hs _ _ hv)
    refine notPanic_bindDo (notPanic_loadField fun v hv => ?_) fun _ => ?_
    · exact notPanic_loadIPAMField (by simpa [networkShape] using hs _ _ hv)
    refine notPanic_bindDo (notPanic_loadField fun v hv => ?_) fun _ => ?_
    · have h := hs _ _ hv; simp [networkShape] at h
    refine notPanic_bindDo (notPanic_loadField fun v hv => ?_) fun _ => ?_
    · exact notPanic_loadMappingOrList '=' (by simpa [networkShape] using hs _ _ hv)
    exact notPanic_ok _
  · cases he : dlookup d "external" with
    | none => trivial
    | some v =>
      have h := dlookup_all hall he
      exact notPanic_map _ (notPanic_loadExternalName name (by simpa [networkShape] using h))

theorem notPanic_loadNetworks {nd : Dict}
    (h : ∀ kv ∈ nd, kv.2 = GoVal.null ∨ ∃ body, kv.2 = GoVal.dict body ∧
        body.all (fun e => networkShape e.1 e.2) = true) :
    NotPanic (loadNetworks nd) := by
  unfold loadNetworks
  refine notPanic_eMapM fun kv hkv => ?_
  rcases h kv hkv with hnull | ⟨body, hb, hall⟩
  · rw [hnull]; trivial
  · rw [hb]
    exact notPanic_okBind (notPanic_map _ (notPanic_loadNetwork kv.1 hall))

theorem notPanic_loadVolume {d : Dict} (name : String)
    (hall : d.all (fun kv => volumeShape kv.1 kv.2) = true) :
    NotPanic (loadVolume name d) := by
  have hs : ∀ k v, dlookup d k = some v → volumeShape k v = true :=
    fun _ _ hl => dlookup_all hall hl
  unfold loadVolume loadVolumeStruct
  refine notPanic_bind ?_ fun volume => ?_
  · refine notPanic_bindDo (notPanic_loadField fun v hv => ?_) fun _ => ?_
    · exact notPanic_assertString (by simpa [volumeShape] using hs _ _ hv)
    refine notPanic_bindDo (notPanic_loadField fun v hv => ?_) fun _ => ?_
    · exact notPanic_loadStringMapping (by simpa [volumeShape] using hs _ _ hv)
    refine notPanic_bindDo (notPanic_loadField fun v hv => ?_) fun _ => ?_
    · have h := hs _ _ hv; simp [volumeShape] at h
    refine notPanic_bindDo (notPanic_loadField fun v hv => ?_) fun _ => ?_
    · exact notPanic_loadMappingOrList '=' (by simpa [volumeShape] using hs _ _ hv)
    exact notPanic_ok _
  · cases he : dlookup d "external" with
    | none => trivial
    | some v =>
      have h := dlookup_all hall he
      exact notPanic_map _ (notPanic_loadExternalName name (by simpa [volumeShape] using h))

theorem notPanic_loadVolumes {vd : Dict}
    (h : ∀ kv ∈ vd, kv.2 = GoVal.null ∨ ∃ body, kv.2 = GoVal.dict body ∧
        body.all (fun e => volumeShape e.1 e.2) = true) :
    NotPanic (loadVolumes vd) := by
  unfold loadVolumes
  refine notPanic_eMapM fun kv hkv => ?_
  rcases h kv hkv with hnull | ⟨body, hb, hall⟩
  · rw [hnull]; trivial
  · rw [hb]
    exact notPanic_okBind (notPanic_map _ (notPanic_loadVolume kv.1 hall))

theorem notPanic_loadFile (file : ConfigFile) : NotPanic (loadFile file) := by
  unfold loadFile
  cases hval : schemaValidate file.config with
  | error e =>
    have hv : validateAgainstConfigSchema file = .error (.schema e) := by
      simp [validateAgainstConfigSchema, hval, Except.mapError]
    rw [hv, error_bind]
    trivial
  | ok u =>
    cases u
    have hv : validateAgainstConfigSchema file = .ok () := by
      simp [validateAgainstConfigSchema, hval, Except.mapError]
    rw [hv, ok_bind]
    obtain ⟨⟨s, hvs⟩, hsvc, hnet, hvol⟩ := schemaValidate_ok hval
    rw [hvs]
    simp only [assertStringOpt, ok_bind]
    by_cases h21 : s = "2.1"
    · rw [if_pos h21]
      refine notPanic_bind ?_ fun _ => notPanic_bind ?_ fun _ => notPanic_map _ ?_
      · cases hsv : dlookup file.config "services" with
        | none => trivial
        | some sv =>
          obtain ⟨entries, he, hok⟩ := hsvc sv hsv
          subst he
          refine notPanic_okBind (notPanic_loadServices fun kv hkv => ?_)
          rcases checkEntities_ok hok kv hkv with ⟨_, hfalse⟩ | hbody
          · simp at hfalse
          · exact hbody
      · cases hnv : dlookup file.config "networks" with
        | none => trivial
        | some nv =>
          obtain ⟨entries, he, hok⟩ := hnet nv hnv
          subst he
          refine notPanic_okBind (notPanic_loadNetworks fun kv hkv => ?_)
          rcases checkEntities_ok hok kv hkv with ⟨hnull, _⟩ | hbody
          · exact Or.inl hnull
          · exact Or.inr hbody
      · cases hvv : dlookup file.config "volumes" with
        | none => trivial
        | some vv =>
          obtain ⟨entries, he, hok⟩ := hvol vv hvv
          subst he
          refine notPanic_okBind (notPanic_loadVolumes fun kv hkv => ?_)
          rcases checkEntities_ok hok kv hkv with ⟨hnull, _⟩ | hbody
          · exact Or.inl hnull
          · exact Or.inr hbody
    · rw [if_neg h21]
      trivial

/-! ## C10 -/

/-- C10: no Go runtime panic (failed type assertion or unrecognised-tag
panic) is reachable through `Load`: every failure surfaces as a returned
error value.  The schema gate runs first inside `Load`, so this holds
unconditionally — in particular for every document that passed schema
validation. -/
theorem c10_no_panic :
    ∀ (configDetails : ConfigDetails) (msg : String),
      Load configDetails ≠ .error (.goPanic msg) := by
  intro cd msg
  refine ne_goPanic_of_notPanic ?_ msg
  unfold Load
  cases hcf : cd.configFiles with
  | nil => trivial
  | cons f rest =>
    cases rest with
    | nil => exact notPanic_loadFile f
    | cons f2 r2 => trivial

/-- Witness for C10: `Load` at a concrete schema-valid document is not a
panic. -/
theorem c10_no_panic_witness :
    Load (buildConfigDetails svcOnlyDoc) ≠ .error (.goPanic "interface conversion") :=
  c10_no_panic (buildConfigDetails svcOnlyDoc) "interface conversion"

end ComposeFile
